import Mathlib

/-!
Verification development for the interactive annotation/crop editor of the
ClipBuilder repository (frontend/src/components/ImageEditorModal.jsx).

The JavaScript editor state is shallowly embedded:
- fabric.js canvas objects become the `FabObj` structure; the canvas object
  list (bottom-of-z-order first, as returned by `fc.getObjects()`) becomes
  `List FabObj`;
- the serialized history snapshots (`JSON.stringify(fc.toDatalessJSON(
  ['selectable','evented']))`) become `Snapshot` values compared structurally;
  the runtime-only `isEditing` flag is not serialized, which `serObj` models;
- the mutable refs of the React component (`undoStackRef`, `rectObjRef`,
  `cropPendingRectRef`, ...) become fields of the `Editor` structure; refs
  that alias canvas objects are modelled as indices into the scene list;
- numeric pointer/geometry values are rationals (ℚ); `Math.round` is
  `jsRound` (round half toward positive infinity, as in JavaScript).
-/

/-- The tool state of the editor: `const [tool, setTool] = useState('none')`,
with values none|select|draw|rect|arrow|text|crop|circle. -/
inductive Tool
  | none
  | select
  | draw
  | rect
  | circle
  | arrow
  | text
  | crop
  deriving DecidableEq, Repr

/-- The fabric object type tag (`obj.type`): the editor creates images,
rects, ellipses, lines, triangles, textboxes and freehand paths. -/
inductive ObjKind
  | image
  | rect
  | ellipse
  | line
  | triangle
  | textbox
  | path
  deriving DecidableEq, Repr

/-- A fabric.js drawable object, restricted to the attributes the editor
reads or writes.  `width`/`height` of an image are its intrinsic pixel
dimensions and `scaleX`/`scaleY` its display scaling, as in fabric. -/
structure FabObj where
  kind : ObjKind
  left : ℚ
  top : ℚ
  width : ℚ := 0
  height : ℚ := 0
  rx : ℚ := 0
  ry : ℚ := 0
  x2 : ℚ := 0
  y2 : ℚ := 0
  angle : ℚ := 0
  scaleX : ℚ := 1
  scaleY : ℚ := 1
  stroke : String := ""
  strokeWidth : ℚ := 0
  fill : String := ""
  dashed : Bool := false
  fontSize : ℚ := 0
  selectable : Bool
  evented : Bool
  src : String := ""
  isEditing : Bool := false
  deriving DecidableEq, Repr

/-- A history snapshot: the structural content of
`JSON.stringify(fc.toDatalessJSON(['selectable','evented']))`.
Snapshot equality is structural, mirroring JSON string equality. -/
abbrev Snapshot : Type := List FabObj

/-- Serialization of one object.  fabric's `toDatalessJSON` records geometry,
style and the requested `selectable`/`evented` flags but not the transient
`isEditing` runtime flag. -/
def serObj (o : FabObj) : FabObj := { o with isEditing := false }

/-- `toDatalessJSON` of the whole canvas: serialize every object in z-order. -/
def snapshotOf (s : List FabObj) : Snapshot := s.map serObj

/-- The two history stacks, `undoStackRef` and `redoStackRef`.
The JavaScript arrays push/pop at the back; we store the *newest* snapshot at
the head of the list, so `push` is `::`, `pop` takes the head, and `shift`
(dropping the oldest entry) is `dropLast`. -/
structure History where
  undo : List Snapshot
  redo : List Snapshot
  deriving DecidableEq, Repr

/-- `pushHistory` (ImageEditorModal.jsx lines 405-421): serialize, drop the
commit if it equals the current top, push, evict the oldest entry past 50,
and clear the redo stack. -/
def pushHistory (h : History) (snap : Snapshot) : History :=
  if h.undo.head? = some snap then h
  else if (snap :: h.undo).length > 50 then
    { undo := (snap :: h.undo).dropLast, redo := [] }
  else { undo := snap :: h.undo, redo := [] }

/-- The history push performed by the canvas rebuild effect (lines 356-367):
seed the stack when empty, otherwise push if different from the top; the redo
stack is always cleared.  Unlike `pushHistory`, there is no 50-entry cap. -/
def rebuildPush (snap : Snapshot) (h : History) : History :=
  if h.undo = [] then { undo := [snap], redo := [] }
  else if h.undo.head? = some snap then { undo := h.undo, redo := [] }
  else { undo := snap :: h.undo, redo := [] }

/-- The stack discipline of `handleUndo` (lines 476-485): no-op when the undo
stack has at most one entry, otherwise pop the top onto the redo stack. -/
def histUndo (h : History) : History :=
  match h.undo with
  | top :: prev :: rest => { undo := prev :: rest, redo := top :: h.redo }
  | _ => h

/-- The stack discipline of `handleRedo` (lines 487-496): no-op when the redo
stack is empty, otherwise pop it onto the undo stack. -/
def histRedo (h : History) : History :=
  match h.redo with
  | next :: rest => { undo := next :: h.undo, redo := rest }
  | [] => h

/-- JavaScript `Math.round`: round half toward positive infinity. -/
def jsRound (x : ℚ) : ℤ := ⌊x + 1 / 2⌋

/-- The source's `clamp(n, min, max) = Math.max(min, Math.min(max, n))`,
on integers. -/
def clampI (n lo hi : ℤ) : ℤ := max lo (min hi n)

/-- Output of the coordinate mapper: fit scale, drawn size, centering
offsets. -/
structure FitResult where
  scale : ℚ
  drawnW : ℚ
  drawnH : ℚ
  offsetX : ℤ
  offsetY : ℤ
  deriving DecidableEq, Repr

/-- The Coordinate Mapper (canvas rebuild effect, lines 330-334):
`scale = Math.min(canvasW / imgW, canvasH / imgH, 2)`,
`offsetX = Math.max(0, Math.round((canvasW - drawnW) / 2))`, likewise for Y. -/
def computeFit (imgW imgH canvasW canvasH : ℚ) : FitResult :=
  let scale := min (min (canvasW / imgW) (canvasH / imgH)) 2
  let drawnW := imgW * scale
  let drawnH := imgH * scale
  { scale := scale
    drawnW := drawnW
    drawnH := drawnH
    offsetX := max 0 (jsRound ((canvasW - drawnW) / 2))
    offsetY := max 0 (jsRound ((canvasH - drawnH) / 2)) }

/-- The pending crop rectangle `{x, y, width, height}` in surface
coordinates, as stored by `setCropPending` (already `Math.round`ed). -/
structure CropRect where
  x : ℤ
  y : ℤ
  width : ℤ
  height : ℤ
  deriving DecidableEq, Repr

/-- The editor component's mutable state.  React refs that alias canvas
objects (`rectObjRef`, `circleObjRef`, `textGuideRectRef`, the arrow line and
head, `cropPendingRectRef`) are modelled as indices into `scene`; the tracked
base image (`baseImageObjRef`) is the object at index 0, which the rebuild
and restore paths enforce with `sendToBack`. -/
structure Editor where
  scene : List FabObj
  tool : Tool
  hist : History
  cropPending : Option CropRect
  cropRect : Option ℕ
  isDrawingRect : Bool
  rectObj : Option ℕ
  isDrawingCircle : Bool
  circleObj : Option ℕ
  isDrawingTextBox : Bool
  textGuide : Option ℕ
  textBoxStart : ℚ × ℚ
  dragStart : ℚ × ℚ
  arrowDrawing : Bool
  arrowX0 : ℚ
  arrowY0 : ℚ
  arrowLine : Option ℕ
  arrowHead : Option ℕ
  strokeColor : String
  strokeWidth : ℚ
  workingUrl : String
  canvasW : ℤ
  canvasH : ℤ
  imageLoadError : String
  deriving DecidableEq, Repr

/-- Whether the tool is `'select'` (`tool === 'select'` comparisons). -/
def Tool.isSelect : Tool → Bool
  | Tool.select => true
  | _ => false

/-- The selection policy applied to a non-base object by `restoreFromJson`
(lines 460-464): `obj.selectable = tool === 'select'`, same for `evented`. -/
def selectPolicy (t : Tool) (o : FabObj) : FabObj :=
  { o with selectable := t.isSelect, evented := t.isSelect }

/-- The tool wiring effect's selection policy loop (lines 600-611): the
tracked base image (index 0) is skipped, an object currently in text-edit
mode stays interactive, every other object follows the select policy. -/
def applyWiring (t : Tool) (s : List FabObj) : List FabObj :=
  match s with
  | [] => []
  | b :: rest =>
      b :: rest.map (fun o =>
        if o.isEditing then { o with selectable := true, evented := true }
        else selectPolicy t o)

/-- Whether an object is a fabric image (`o?.type === 'image'`). -/
def isImage (o : FabObj) : Bool := o.kind == ObjKind.image

/-- Scene reconstruction of `restoreFromJson` (lines 423-474): load the
snapshot, take the first image object as the base, force it non-selectable
and non-evented and send it to back, then re-apply the current tool's
selection policy to every other object. -/
def restoreScene (t : Tool) (snap : Snapshot) : List FabObj :=
  match snap.find? isImage with
  | Option.none => snap.map (selectPolicy t)
  | Option.some b =>
      { b with selectable := false, evented := false } ::
        (snap.eraseP isImage).map (selectPolicy t)

/-- `restoreFromJson` also re-synchronizes `workingUrl` with the restored
base image's `src` when it is non-empty (lines 444-455). -/
def restoredUrl (snap : Snapshot) (old : String) : String :=
  match snap.find? isImage with
  | Option.some b => if b.src = "" then old else b.src
  | Option.none => old

/-- Restore the editor from a snapshot: new scene plus `workingUrl` sync.
The restore sets `skipNextRebuildRef`, so no canvas rebuild follows. -/
def editorRestore (snap : Snapshot) (ed : Editor) : Editor :=
  { ed with
    scene := restoreScene ed.tool snap
    workingUrl := restoredUrl snap ed.workingUrl }

/-- `pushHistory` at the editor level: snapshot the scene and commit. -/
def editorPush (ed : Editor) : Editor :=
  { ed with hist := pushHistory ed.hist (snapshotOf ed.scene) }

/-- `handleUndo` (lines 476-485): no-op unless the undo stack has at least
two entries; pop the top onto redo and restore from the new top. -/
def editorUndo (ed : Editor) : Editor :=
  match ed.hist.undo with
  | top :: prev :: rest =>
      { editorRestore prev ed with
        hist := { undo := prev :: rest, redo := top :: ed.hist.redo } }
  | _ => ed

/-- `handleRedo` (lines 487-496): no-op when the redo stack is empty; pop it,
push onto undo, restore from it. -/
def editorRedo (ed : Editor) : Editor :=
  match ed.hist.redo with
  | next :: rest =>
      { editorRestore next ed with
        hist := { undo := next :: ed.hist.undo, redo := rest } }
  | [] => ed

/-- Set the tool state and run the tool wiring effect's selection-policy
loop, which React triggers whenever `tool` changes. -/
def setToolOnly (t : Tool) (ed : Editor) : Editor :=
  { ed with tool := t, scene := applyWiring t ed.scene }

/-- `handleCancelCrop` (lines 942-951): clear the pending crop and its ref,
and remove the guide rectangle from the canvas when present. -/
def cancelCrop (ed : Editor) : Editor :=
  match ed.cropRect with
  | Option.some idx =>
      { ed with
        cropRect := Option.none
        cropPending := Option.none
        scene := ed.scene.eraseIdx idx }
  | Option.none => { ed with cropPending := Option.none }

/-- A toolbar tool button click: the crop button first runs
`handleCancelCrop()` (line 1054); every button then sets the tool, firing
the wiring effect. -/
def clickTool (t : Tool) (ed : Editor) : Editor :=
  match t with
  | Tool.crop => setToolOnly Tool.crop (cancelCrop ed)
  | _ => setToolOnly t ed

/-- Update the scene object at index `i` (mutation through an object ref);
out-of-range indices leave the scene unchanged, as mutating an object no
longer on the canvas does not change the canvas. -/
def updAt (s : List FabObj) (i : ℕ) (f : FabObj → FabObj) : List FabObj :=
  match s[i]? with
  | Option.some o => s.set i (f o)
  | Option.none => s

/-- Promotion on pointer-up: `obj.set({ selectable: true, evented: true })`. -/
def promoteAt (s : List FabObj) (i : ℕ) : List FabObj :=
  updAt s i (fun o => { o with selectable := true, evented := true })

/-- The shared rect/crop branch of `handleStagePointerDown` (lines 727-746):
a 1x1 transient rectangle anchored at the pointer, dashed green for crop. -/
def mkRectDown (isCrop : Bool) (p : ℚ × ℚ) (ed : Editor) : Editor :=
  let r : FabObj :=
    { kind := ObjKind.rect
      left := p.1
      top := p.2
      width := 1
      height := 1
      fill := if isCrop then "rgba(16,185,129,0.08)" else "rgba(0,0,0,0)"
      stroke := if isCrop then "#10b981" else ed.strokeColor
      strokeWidth := ed.strokeWidth
      dashed := isCrop
      selectable := false
      evented := false }
  { ed with
    isDrawingRect := true
    dragStart := p
    rectObj := Option.some ed.scene.length
    scene := ed.scene ++ [r] }

/-- `handleStagePointerDown` (lines 641-747): guarded by a pending crop and
by the tool whitelist; creates the per-tool transient object(s), all
non-selectable and non-evented. -/
def pointerDown (p : ℚ × ℚ) (ed : Editor) : Editor :=
  match ed.cropPending with
  | Option.some _ => ed
  | Option.none =>
  match ed.tool with
  | Tool.text =>
      let guide : FabObj :=
        { kind := ObjKind.rect
          left := p.1
          top := p.2
          width := 1
          height := 1
          fill := "rgba(96,165,250,0.10)"
          stroke := "#60a5fa"
          strokeWidth := 2
          dashed := true
          selectable := false
          evented := false }
      { ed with
        isDrawingTextBox := true
        textBoxStart := p
        textGuide := Option.some ed.scene.length
        scene := ed.scene ++ [guide] }
  | Tool.arrow =>
      let line : FabObj :=
        { kind := ObjKind.line
          left := p.1
          top := p.2
          x2 := p.1
          y2 := p.2
          stroke := ed.strokeColor
          strokeWidth := ed.strokeWidth
          selectable := false
          evented := false }
      let hd : FabObj :=
        { kind := ObjKind.triangle
          left := p.1
          top := p.2
          width := 18
          height := 24
          fill := ed.strokeColor
          angle := 0
          selectable := false
          evented := false }
      { ed with
        arrowDrawing := true
        arrowX0 := p.1
        arrowY0 := p.2
        arrowLine := Option.some ed.scene.length
        arrowHead := Option.some (ed.scene.length + 1)
        scene := ed.scene ++ [line, hd] }
  | Tool.circle =>
      let c : FabObj :=
        { kind := ObjKind.ellipse
          left := p.1
          top := p.2
          rx := 1
          ry := 1
          fill := "rgba(0,0,0,0)"
          stroke := ed.strokeColor
          strokeWidth := ed.strokeWidth
          selectable := false
          evented := false }
      { ed with
        isDrawingCircle := true
        dragStart := p
        circleObj := Option.some ed.scene.length
        scene := ed.scene ++ [c] }
  | Tool.rect => mkRectDown false p ed
  | Tool.crop => mkRectDown true p ed
  | _ => ed

/-- `handleStagePointerMove` (lines 749-815).  `at2` abstracts the JavaScript
`(Math.atan2(dy, dx) * 180) / Math.PI`, a transcendental function the claims
do not inspect; every theorem below holds for an arbitrary `at2`. -/
def pointerMove (at2 : ℚ → ℚ → ℚ) (p : ℚ × ℚ) (ed : Editor) : Editor :=
  match ed.cropPending with
  | Option.some _ => ed
  | Option.none =>
  match ed.tool with
  | Tool.arrow =>
      if ed.arrowDrawing then
        match ed.arrowLine, ed.arrowHead with
        | Option.some li, Option.some hi =>
            let dx := p.1 - ed.arrowX0
            let dy := p.2 - ed.arrowY0
            let ang := at2 dy dx + 90
            { ed with
              scene :=
                updAt (updAt ed.scene li (fun o => { o with x2 := p.1, y2 := p.2 }))
                  hi (fun o => { o with left := p.1, top := p.2, angle := ang }) }
        | _, _ => ed
      else ed
  | Tool.circle =>
      if ed.isDrawingCircle then
        match ed.circleObj with
        | Option.some i =>
            let x0 := ed.dragStart.1
            let y0 := ed.dragStart.2
            { ed with
              scene := updAt ed.scene i (fun o =>
                { o with
                  left := (x0 + p.1) / 2
                  top := (y0 + p.2) / 2
                  rx := max 1 (|p.1 - x0| / 2)
                  ry := max 1 (|p.2 - y0| / 2) }) }
        | Option.none => ed
      else ed
  | Tool.text =>
      if ed.isDrawingTextBox then
        match ed.textGuide with
        | Option.some i =>
            let x0 := ed.textBoxStart.1
            let y0 := ed.textBoxStart.2
            { ed with
              scene := updAt ed.scene i (fun o =>
                { o with
                  left := min x0 p.1
                  top := min y0 p.2
                  width := |p.1 - x0|
                  height := |p.2 - y0| }) }
        | Option.none => ed
      else ed
  | Tool.rect =>
      if ed.isDrawingRect then
        match ed.rectObj with
        | Option.some i =>
            let x0 := ed.dragStart.1
            let y0 := ed.dragStart.2
            { ed with
              scene := updAt ed.scene i (fun o =>
                { o with
                  left := min x0 p.1
                  top := min y0 p.2
                  width := |p.1 - x0|
                  height := |p.2 - y0| }) }
        | Option.none => ed
      else ed
  | Tool.crop =>
      if ed.isDrawingRect then
        match ed.rectObj with
        | Option.some i =>
            let x0 := ed.dragStart.1
            let y0 := ed.dragStart.2
            { ed with
              scene := updAt ed.scene i (fun o =>
                { o with
                  left := min x0 p.1
                  top := min y0 p.2
                  width := |p.1 - x0|
                  height := |p.2 - y0| }) }
        | Option.none => ed
      else ed
  | _ => ed

/-- `handleStagePointerUp` (lines 817-940).  Every tool branch commits and/or
cleans up its transient state and ends with `setTool('none')`, which fires
the wiring effect.  Only the crop branch checks the 5-unit minimum; the
rect and circle branches promote unconditionally. -/
def pointerUp (ed : Editor) : Editor :=
  match ed.cropPending with
  | Option.some _ => ed
  | Option.none =>
  match ed.tool with
  | Tool.arrow =>
      let s1 := match ed.arrowLine with
        | Option.some i => promoteAt ed.scene i
        | Option.none => ed.scene
      let s2 := match ed.arrowHead with
        | Option.some i => promoteAt s1 i
        | Option.none => s1
      let ed1 :=
        { ed with
          scene := s2
          arrowDrawing := false
          arrowLine := Option.none
          arrowHead := Option.none }
      setToolOnly Tool.none (editorPush ed1)
  | Tool.rect =>
      let s1 := match ed.rectObj with
        | Option.some i => promoteAt ed.scene i
        | Option.none => ed.scene
      let ed1 := { ed with scene := s1, rectObj := Option.none, isDrawingRect := false }
      setToolOnly Tool.none (editorPush ed1)
  | Tool.circle =>
      let s1 := match ed.circleObj with
        | Option.some i => promoteAt ed.scene i
        | Option.none => ed.scene
      let ed1 := { ed with scene := s1, circleObj := Option.none, isDrawingCircle := false }
      setToolOnly Tool.none (editorPush ed1)
  | Tool.text =>
      match ed.textGuide with
      | Option.none =>
          setToolOnly Tool.none { ed with isDrawingTextBox := false }
      | Option.some i =>
          match ed.scene[i]? with
          | Option.none =>
              setToolOnly Tool.none
                { ed with textGuide := Option.none, isDrawingTextBox := false }
          | Option.some guide =>
              let w := jsRound guide.width
              let h := jsRound guide.height
              let tb : FabObj :=
                { kind := ObjKind.textbox
                  left := (jsRound guide.left : ℚ)
                  top := (jsRound guide.top : ℚ)
                  width := ((max 160 w : ℤ) : ℚ)
                  fill := ed.strokeColor
                  fontSize := ((clampI (if h > 6 then h else 28) 14 120 : ℤ) : ℚ)
                  selectable := true
                  evented := true }
              let ed1 :=
                { ed with
                  scene := ed.scene.eraseIdx i ++ [tb]
                  textGuide := Option.none
                  isDrawingTextBox := false }
              setToolOnly Tool.none (editorPush ed1)
  | Tool.crop =>
      match ed.rectObj with
      | Option.none =>
          setToolOnly Tool.none { ed with isDrawingRect := false }
      | Option.some i =>
          match ed.scene[i]? with
          | Option.none =>
              setToolOnly Tool.none
                { ed with rectObj := Option.none, isDrawingRect := false }
          | Option.some rect =>
              if jsRound rect.width < 5 ∨ jsRound rect.height < 5 then
                setToolOnly Tool.none
                  { ed with
                    rectObj := Option.none
                    isDrawingRect := false
                    scene := ed.scene.eraseIdx i }
              else
                setToolOnly Tool.none
                  { ed with
                    rectObj := Option.none
                    isDrawingRect := false
                    cropRect := Option.some i
                    cropPending := Option.some
                      { x := jsRound rect.left
                        y := jsRound rect.top
                        width := jsRound rect.width
                        height := jsRound rect.height } }
  | _ => ed

/-- Canvas width of the rebuild effect (line 324):
`Math.max(320, cw0 || 1280)`. -/
def fitCanvasW (cw0 : ℤ) : ℤ := max 320 (if cw0 = 0 then 1280 else cw0)

/-- Canvas height of the rebuild effect (line 325):
`Math.max(240, ch0 || 760)`. -/
def fitCanvasH (ch0 : ℤ) : ℤ := max 240 (if ch0 = 0 then 760 else ch0)

/-- The base image object placed by the rebuild effect (lines 316-346):
intrinsic size `Number(fimg.width) || 1`, fitted and centered by
`computeFit`, non-selectable and non-evented. -/
def mkBase (url : String) (imgW0 imgH0 : ℚ) (cw0 ch0 : ℤ) : FabObj :=
  { kind := ObjKind.image
    left := ((computeFit (if imgW0 = 0 then 1 else imgW0) (if imgH0 = 0 then 1 else imgH0)
      ((fitCanvasW cw0 : ℤ) : ℚ) ((fitCanvasH ch0 : ℤ) : ℚ)).offsetX : ℚ)
    top := ((computeFit (if imgW0 = 0 then 1 else imgW0) (if imgH0 = 0 then 1 else imgH0)
      ((fitCanvasW cw0 : ℤ) : ℚ) ((fitCanvasH ch0 : ℤ) : ℚ)).offsetY : ℚ)
    width := if imgW0 = 0 then 1 else imgW0
    height := if imgH0 = 0 then 1 else imgH0
    scaleX := (computeFit (if imgW0 = 0 then 1 else imgW0) (if imgH0 = 0 then 1 else imgH0)
      ((fitCanvasW cw0 : ℤ) : ℚ) ((fitCanvasH ch0 : ℤ) : ℚ)).scale
    scaleY := (computeFit (if imgW0 = 0 then 1 else imgW0) (if imgH0 = 0 then 1 else imgH0)
      ((fitCanvasW cw0 : ℤ) : ℚ) ((fitCanvasH ch0 : ℤ) : ℚ)).scale
    selectable := false
    evented := false
    src := url }

/-- The canvas (re)build effect (lines 245-380): decode the working image,
size the canvas from the container (floors 320x240, fallback 1280x760 when
the container reports zero), fit and center the base image non-selectable and
non-evented at the back, then run the initial/crop history push. -/
def rebuild (imgW0 imgH0 : ℚ) (cw0 ch0 : ℤ) (ed : Editor) : Editor :=
  { ed with
    scene := [mkBase ed.workingUrl imgW0 imgH0 cw0 ch0]
    canvasW := fitCanvasW cw0
    canvasH := fitCanvasH ch0
    hist := rebuildPush (snapshotOf [mkBase ed.workingUrl imgW0 imgH0 cw0 ch0]) ed.hist }

/-- The clamping of the pending rectangle to the canvas bounds in
`handleApplyCrop` (lines 966-971). -/
def clampPending (p : CropRect) (cw ch : ℤ) : CropRect :=
  let cx := clampI p.x 0 (max 0 (cw - 1))
  let cy := clampI p.y 0 (max 0 (ch - 1))
  { x := cx
    y := cy
    width := clampI p.width 1 (max 1 (cw - cx))
    height := clampI p.height 1 (max 1 (ch - cy)) }

/-- `handleApplyCrop`, successful path (lines 953-979) composed with the
canvas rebuild its `setWorkingUrlSafe` triggers: remove the guide, clear
the pending state, rasterize and crop (the resulting bitmap has the clamped
rectangle's dimensions and object URL `url`), set the working URL, reset the
tool, and rebuild the scene around the cropped bitmap, pushing one history
entry on top of the existing undo stack.  `cw0`/`ch0` are the container
dimensions read back by the rebuild effect. -/
def applyCropSuccess (url : String) (cw0 ch0 : ℤ) (ed : Editor) : Editor :=
  match ed.cropPending, ed.cropRect with
  | Option.some pending, Option.some idx =>
      match ed.scene[idx]? with
      | Option.some _ =>
          let c := clampPending pending ed.canvasW ed.canvasH
          let ed1 :=
            { ed with
              scene := ed.scene.eraseIdx idx
              cropRect := Option.none
              cropPending := Option.none
              workingUrl := url
              tool := Tool.none }
          rebuild (c.width : ℚ) (c.height : ℚ) cw0 ch0 ed1
      | Option.none => ed
  | _, _ => ed

/-- `handleApplyCrop`, failure path (lines 980-990): rasterization or bitmap
decode failed after the guide was removed; the catch block re-adds the guide
rectangle, restores `cropPendingRectRef` and `setCropPending(pending)`.
The working URL, tool, history and `imageLoadError` are untouched. -/
def applyCropFail (ed : Editor) : Editor :=
  match ed.cropPending, ed.cropRect with
  | Option.some pending, Option.some idx =>
      match ed.scene[idx]? with
      | Option.some rect =>
          let s1 := ed.scene.eraseIdx idx
          { ed with
            scene := s1 ++ [rect]
            cropRect := Option.some s1.length
            cropPending := Option.some pending }
      | Option.none => ed
  | _, _ => ed

/-- `removeSelected` (lines 993-1004): remove every active object except the
tracked base image, then commit.  The selection is abstracted as a predicate
on objects; the base (index 0) is never removed. -/
def removeSelected (sel : FabObj → Bool) (ed : Editor) : Editor :=
  match ed.scene with
  | [] => ed
  | b :: rest => editorPush { ed with scene := b :: rest.filter (fun o => !sel o) }

/-- `clearAll` (lines 1006-1016): remove every object except the tracked
base image, then commit. -/
def clearAll (ed : Editor) : Editor :=
  match ed.scene with
  | [] => ed
  | b :: _ => editorPush { ed with scene := [b] }

/-- The free-draw completion: fabric adds the brush's path object to the
canvas and fires `path:created`, whose handler calls `pushHistory`
(lines 621-626). -/
def finishPath (path : FabObj) (ed : Editor) : Editor :=
  editorPush { ed with scene := ed.scene ++ [path] }

/-- The base-image invariant on a scene: the object at index 0 (bottom of
z-order) is an image with `selectable = false` and `evented = false`. -/
def sceneInvB (s : List FabObj) : Bool :=
  match s with
  | b :: _ => isImage b && !b.selectable && !b.evented
  | [] => false

/-- A snapshot that contains at least one image object, so that
`restoreFromJson` can re-identify a base image. -/
def snapHasImage (snap : Snapshot) : Bool := snap.any isImage

/-- Object refs never alias the base image: every live index is ≥ 1.
Transients are always appended to a scene that already holds the base. -/
def refOkB (r : Option ℕ) : Bool :=
  match r with
  | Option.some k => decide (1 ≤ k)
  | Option.none => true

/-- The inductive editor invariant: base-image discipline on the scene,
image-bearing snapshots throughout both history stacks, and no object ref
aliasing index 0. -/
def editorInv (ed : Editor) : Bool :=
  sceneInvB ed.scene
    && ed.hist.undo.all snapHasImage
    && ed.hist.redo.all snapHasImage
    && refOkB ed.rectObj
    && refOkB ed.circleObj
    && refOkB ed.textGuide
    && refOkB ed.arrowLine
    && refOkB ed.arrowHead
    && refOkB ed.cropRect

/-- One user-visible transition of the editor: a pointer event, a toolbar
click, an undo/redo, a crop decision, a free-draw completion, an object
transform commit, a delete/clear, or a canvas rebuild. -/
inductive Step (at2 : ℚ → ℚ → ℚ) : Editor → Editor → Prop
  | down (p : ℚ × ℚ) (ed : Editor) : Step at2 ed (pointerDown p ed)
  | move (p : ℚ × ℚ) (ed : Editor) : Step at2 ed (pointerMove at2 p ed)
  | up (ed : Editor) : Step at2 ed (pointerUp ed)
  | toolClick (t : Tool) (ed : Editor) : Step at2 ed (clickTool t ed)
  | undo (ed : Editor) : Step at2 ed (editorUndo ed)
  | redo (ed : Editor) : Step at2 ed (editorRedo ed)
  | cancel (ed : Editor) : Step at2 ed (cancelCrop ed)
  | applyOk (url : String) (cw0 ch0 : ℤ) (ed : Editor) :
      Step at2 ed (applyCropSuccess url cw0 ch0 ed)
  | applyFail (ed : Editor) : Step at2 ed (applyCropFail ed)
  | pathDone (path : FabObj) (ed : Editor) : Step at2 ed (finishPath path ed)
  | modified (ed : Editor) : Step at2 ed (editorPush ed)
  | removeSel (sel : FabObj → Bool) (ed : Editor) : Step at2 ed (removeSelected sel ed)
  | clear (ed : Editor) : Step at2 ed (clearAll ed)
  | reload (imgW imgH : ℚ) (cw0 ch0 : ℤ) (ed : Editor) :
      Step at2 ed (rebuild imgW imgH cw0 ch0 ed)

theorem updAt_cons_succ (b : FabObj) (t : List FabObj) (k : ℕ) (f : FabObj → FabObj) :
    updAt (b :: t) (k + 1) f = b :: updAt t k f := by
  simp only [updAt, List.getElem?_cons_succ]
  cases t[k]? <;> rfl

theorem getElem_append_len {α : Type} (s : List α) (r : α) :
    (s ++ [r])[s.length]? = some r := by
  induction s with
  | nil => rfl
  | cons a t ih => simp [ih]

theorem eraseIdx_append_len {α : Type} (s : List α) (r : α) :
    (s ++ [r]).eraseIdx s.length = s := by
  induction s with
  | nil => rfl
  | cons a t ih =>
      show a :: (t ++ [r]).eraseIdx t.length = a :: t
      rw [ih]

theorem set_append_len {α : Type} (s : List α) (r x : α) :
    (s ++ [r]).set s.length x = s ++ [x] := by
  induction s with
  | nil => rfl
  | cons a t ih =>
      show a :: (t ++ [r]).set t.length x = a :: (t ++ [x])
      rw [ih]

theorem promoteAt_append_len (s : List FabObj) (r : FabObj) :
    promoteAt (s ++ [r]) s.length =
      s ++ [{ r with selectable := true, evented := true }] := by
  simp [promoteAt, updAt, getElem_append_len, set_append_len]

theorem sceneInvB_elim (s : List FabObj) (h : sceneInvB s = true) :
    ∃ b t, s = b :: t ∧ b.kind = ObjKind.image ∧
      b.selectable = false ∧ b.evented = false := by
  cases s with
  | nil => simp [sceneInvB] at h
  | cons b t =>
      have h' := h
      simp only [sceneInvB, isImage, Bool.and_eq_true, beq_iff_eq,
        Bool.not_eq_true'] at h'
      exact ⟨b, t, rfl, h'.1.1, h'.1.2, h'.2⟩

theorem sceneInvB_cons_of (b : FabObj) (t : List FabObj)
    (hk : b.kind = ObjKind.image) (hs : b.selectable = false) (he : b.evented = false) :
    sceneInvB (b :: t) = true := by
  simp [sceneInvB, isImage, hk, hs, he]

theorem find?_isImage_of_any (snap : List FabObj) (h : snap.any isImage = true) :
    ∃ b, snap.find? isImage = some b ∧ b.kind = ObjKind.image := by
  induction snap with
  | nil => simp at h
  | cons a t ih =>
      by_cases ha : isImage a = true
      · exact ⟨a, by simp [List.find?, ha], by simpa [isImage] using ha⟩
      · have ht : t.any isImage = true := by
          simpa [List.any_cons, ha] using h
        obtain ⟨b, hb, hk⟩ := ih ht
        exact ⟨b, by simp [List.find?, ha, hb], hk⟩

theorem sceneInvB_restore (t : Tool) (snap : Snapshot) (h : snapHasImage snap = true) :
    sceneInvB (restoreScene t snap) = true := by
  obtain ⟨b, hb, hk⟩ := find?_isImage_of_any snap h
  simp [restoreScene, hb, sceneInvB, isImage, hk]

theorem snapHasImage_snapshotOf (s : List FabObj) (h : sceneInvB s = true) :
    snapHasImage (snapshotOf s) = true := by
  obtain ⟨b, t, rfl, hk, _, _⟩ := sceneInvB_elim s h
  simp [snapshotOf, snapHasImage, serObj, isImage, hk]

theorem all_dropLast {p : Snapshot → Bool} {l : List Snapshot}
    (hl : ∀ x ∈ l, p x = true) : ∀ x ∈ l.dropLast, p x = true := by
  intro x hx
  exact hl x (List.dropLast_subset l hx)

theorem pushHistory_all (h : History) (snap : Snapshot)
    (hu : ∀ x ∈ h.undo, snapHasImage x = true)
    (hr : ∀ x ∈ h.redo, snapHasImage x = true)
    (hs : snapHasImage snap = true) :
    (∀ x ∈ (pushHistory h snap).undo, snapHasImage x = true) ∧
      (∀ x ∈ (pushHistory h snap).redo, snapHasImage x = true) := by
  unfold pushHistory
  split
  · exact ⟨hu, hr⟩
  · have hall : ∀ x ∈ snap :: h.undo, snapHasImage x = true := by
      intro x hx
      rcases List.mem_cons.mp hx with h1 | h2
      · subst h1; exact hs
      · exact hu x h2
    split
    · exact ⟨all_dropLast hall, by simp⟩
    · exact ⟨hall, by simp⟩

theorem rebuildPush_all (h : History) (snap : Snapshot)
    (hu : ∀ x ∈ h.undo, snapHasImage x = true)
    (hs : snapHasImage snap = true) :
    (∀ x ∈ (rebuildPush snap h).undo, snapHasImage x = true) ∧
      (∀ x ∈ (rebuildPush snap h).redo, snapHasImage x = true) := by
  unfold rebuildPush
  split
  · constructor
    · intro x hx
      simp only [List.mem_singleton] at hx
      subst hx; exact hs
    · simp
  · split
    · exact ⟨hu, by simp⟩
    · refine ⟨?_, by simp⟩
      intro x hx
      rcases List.mem_cons.mp hx with h1 | h2
      · subst h1; exact hs
      · exact hu x h2

theorem refOkB_some_elim {k : ℕ} (h : refOkB (Option.some k) = true) : 1 ≤ k := by
  simpa [refOkB] using h

theorem refOkB_of_ge {k : ℕ} (h : 1 ≤ k) : refOkB (Option.some k) = true := by
  simpa [refOkB] using h

theorem editorInv_eq (ed : Editor) :
    editorInv ed = true ↔
      sceneInvB ed.scene = true ∧
      (∀ snap ∈ ed.hist.undo, snapHasImage snap = true) ∧
      (∀ snap ∈ ed.hist.redo, snapHasImage snap = true) ∧
      refOkB ed.rectObj = true ∧
      refOkB ed.circleObj = true ∧
      refOkB ed.textGuide = true ∧
      refOkB ed.arrowLine = true ∧
      refOkB ed.arrowHead = true ∧
      refOkB ed.cropRect = true := by
  simp [editorInv, Bool.and_eq_true, List.all_eq_true, and_assoc]

theorem sceneInvB_append (s l : List FabObj) (h : sceneInvB s = true) :
    sceneInvB (s ++ l) = true := by
  obtain ⟨b, t, rfl, hk, hs, he⟩ := sceneInvB_elim s h
  exact sceneInvB_cons_of b (t ++ l) hk hs he

theorem sceneInvB_updAt_succ (s : List FabObj) (k : ℕ) (f : FabObj → FabObj)
    (h : sceneInvB s = true) : sceneInvB (updAt s (k + 1) f) = true := by
  obtain ⟨b, t, rfl, hk, hs, he⟩ := sceneInvB_elim s h
  rw [updAt_cons_succ]
  exact sceneInvB_cons_of b _ hk hs he

theorem sceneInvB_eraseIdx_succ (s : List FabObj) (k : ℕ)
    (h : sceneInvB s = true) : sceneInvB (s.eraseIdx (k + 1)) = true := by
  obtain ⟨b, t, rfl, hk, hs, he⟩ := sceneInvB_elim s h
  exact sceneInvB_cons_of b _ hk hs he

theorem sceneInvB_applyWiring (t : Tool) (s : List FabObj)
    (h : sceneInvB s = true) : sceneInvB (applyWiring t s) = true := by
  obtain ⟨b, ts, rfl, hk, hs, he⟩ := sceneInvB_elim s h
  exact sceneInvB_cons_of b _ hk hs he

theorem length_pos_of_sceneInvB (s : List FabObj) (h : sceneInvB s = true) :
    1 ≤ s.length := by
  obtain ⟨b, t, rfl, _, _, _⟩ := sceneInvB_elim s h
  simp

theorem editorInv_editorPush (ed : Editor) (h : editorInv ed = true) :
    editorInv (editorPush ed) = true := by
  rw [editorInv_eq] at h ⊢
  obtain ⟨hs, hu, hr, h1, h2, h3, h4, h5, h6⟩ := h
  have hp := pushHistory_all ed.hist (snapshotOf ed.scene) hu hr
    (snapHasImage_snapshotOf _ hs)
  exact ⟨hs, hp.1, hp.2, h1, h2, h3, h4, h5, h6⟩

theorem editorInv_setToolOnly (t : Tool) (ed : Editor) (h : editorInv ed = true) :
    editorInv (setToolOnly t ed) = true := by
  rw [editorInv_eq] at h ⊢
  obtain ⟨hs, hu, hr, h1, h2, h3, h4, h5, h6⟩ := h
  exact ⟨sceneInvB_applyWiring t _ hs, hu, hr, h1, h2, h3, h4, h5, h6⟩

theorem editorInv_editorUndo (ed : Editor) (h : editorInv ed = true) :
    editorInv (editorUndo ed) = true := by
  rw [editorInv_eq] at h
  obtain ⟨hs, hu, hr, h1, h2, h3, h4, h5, h6⟩ := h
  unfold editorUndo
  rcases heq : ed.hist.undo with _ | ⟨top, rest0⟩
  · rw [editorInv_eq]; exact ⟨hs, hu, hr, h1, h2, h3, h4, h5, h6⟩
  · rcases rest0 with _ | ⟨prev, rest⟩
    · rw [editorInv_eq]; exact ⟨hs, hu, hr, h1, h2, h3, h4, h5, h6⟩
    · rw [editorInv_eq]
      refine ⟨sceneInvB_restore _ _ (hu prev (by rw [heq]; simp)), ?_, ?_,
        h1, h2, h3, h4, h5, h6⟩
      · intro snap hsnap
        exact hu snap (by rw [heq]; exact List.mem_cons_of_mem _ hsnap)
      · intro snap hsnap
        rcases List.mem_cons.mp hsnap with hh | hh
        · subst hh; exact hu snap (by rw [heq]; simp)
        · exact hr snap hh

theorem editorInv_editorRedo (ed : Editor) (h : editorInv ed = true) :
    editorInv (editorRedo ed) = true := by
  rw [editorInv_eq] at h
  obtain ⟨hs, hu, hr, h1, h2, h3, h4, h5, h6⟩ := h
  unfold editorRedo
  rcases heq : ed.hist.redo with _ | ⟨next, rest⟩
  · rw [editorInv_eq]; exact ⟨hs, hu, hr, h1, h2, h3, h4, h5, h6⟩
  · rw [editorInv_eq]
    refine ⟨sceneInvB_restore _ _ (hr next (by rw [heq]; simp)), ?_, ?_,
      h1, h2, h3, h4, h5, h6⟩
    · intro snap hsnap
      rcases List.mem_cons.mp hsnap with hh | hh
      · subst hh; exact hr snap (by rw [heq]; simp)
      · exact hu snap hh
    · intro snap hsnap
      exact hr snap (by rw [heq]; exact List.mem_cons_of_mem _ hsnap)

theorem editorInv_cancelCrop (ed : Editor) (h : editorInv ed = true) :
    editorInv (cancelCrop ed) = true := by
  rw [editorInv_eq] at h
  obtain ⟨hs, hu, hr, h1, h2, h3, h4, h5, h6⟩ := h
  unfold cancelCrop
  rcases heq : ed.cropRect with _ | k
  · rw [editorInv_eq]; exact ⟨hs, hu, hr, h1, h2, h3, h4, h5, rfl⟩
  · obtain ⟨j, rfl⟩ : ∃ j, k = j + 1 := by
      have := refOkB_some_elim (heq ▸ h6)
      exact ⟨k - 1, by omega⟩
    rw [editorInv_eq]
    exact ⟨sceneInvB_eraseIdx_succ _ _ hs, hu, hr, h1, h2, h3, h4, h5, rfl⟩

theorem editorInv_rebuild (imgW0 imgH0 : ℚ) (cw0 ch0 : ℤ) (ed : Editor)
    (hu : ∀ snap ∈ ed.hist.undo, snapHasImage snap = true)
    (h1 : refOkB ed.rectObj = true) (h2 : refOkB ed.circleObj = true)
    (h3 : refOkB ed.textGuide = true) (h4 : refOkB ed.arrowLine = true)
    (h5 : refOkB ed.arrowHead = true) (h6 : refOkB ed.cropRect = true) :
    editorInv (rebuild imgW0 imgH0 cw0 ch0 ed) = true := by
  rw [editorInv_eq]
  have hbase : sceneInvB [mkBase ed.workingUrl imgW0 imgH0 cw0 ch0] = true :=
    sceneInvB_cons_of _ _ rfl rfl rfl
  have hp := rebuildPush_all ed.hist
    (snapshotOf [mkBase ed.workingUrl imgW0 imgH0 cw0 ch0]) hu
    (snapHasImage_snapshotOf _ hbase)
  exact ⟨hbase, hp.1, hp.2, h1, h2, h3, h4, h5, h6⟩

theorem editorInv_applyCropSuccess (url : String) (cw0 ch0 : ℤ) (ed : Editor)
    (h : editorInv ed = true) :
    editorInv (applyCropSuccess url cw0 ch0 ed) = true := by
  have hparts := (editorInv_eq ed).mp h
  obtain ⟨hs, hu, hr, h1, h2, h3, h4, h5, h6⟩ := hparts
  unfold applyCropSuccess
  split
  · split
    · exact editorInv_rebuild _ _ _ _ _ hu h1 h2 h3 h4 h5 rfl
    · exact h
  · exact h

theorem editorInv_applyCropFail (ed : Editor) (h : editorInv ed = true) :
    editorInv (applyCropFail ed) = true := by
  have hparts := (editorInv_eq ed).mp h
  obtain ⟨hs, hu, hr, h1, h2, h3, h4, h5, h6⟩ := hparts
  unfold applyCropFail
  split
  · rename_i pending idx hp hc
    split
    · rename_i rect hidx
      obtain ⟨j, rfl⟩ : ∃ j, idx = j + 1 := by
        have := refOkB_some_elim (hc ▸ h6)
        exact ⟨idx - 1, by omega⟩
      have hs1 : sceneInvB (ed.scene.eraseIdx (j + 1)) = true :=
        sceneInvB_eraseIdx_succ _ _ hs
      rw [editorInv_eq]
      exact ⟨sceneInvB_append _ _ hs1, hu, hr, h1, h2, h3, h4, h5,
        refOkB_of_ge (length_pos_of_sceneInvB _ hs1)⟩
    · exact h
  · exact h

theorem editorInv_removeSelected (sel : FabObj → Bool) (ed : Editor)
    (h : editorInv ed = true) : editorInv (removeSelected sel ed) = true := by
  have hparts := (editorInv_eq ed).mp h
  obtain ⟨hs, hu, hr, h1, h2, h3, h4, h5, h6⟩ := hparts
  unfold removeSelected
  split
  · exact h
  · rename_i b rest hsc
    apply editorInv_editorPush
    rw [editorInv_eq]
    obtain ⟨b', t', hbt, hk, hsel, hev⟩ := sceneInvB_elim _ hs
    rw [hsc] at hbt
    cases hbt
    exact ⟨sceneInvB_cons_of _ _ hk hsel hev, hu, hr, h1, h2, h3, h4, h5, h6⟩

theorem editorInv_clearAll (ed : Editor) (h : editorInv ed = true) :
    editorInv (clearAll ed) = true := by
  have hparts := (editorInv_eq ed).mp h
  obtain ⟨hs, hu, hr, h1, h2, h3, h4, h5, h6⟩ := hparts
  unfold clearAll
  split
  · exact h
  · rename_i b rest hsc
    apply editorInv_editorPush
    rw [editorInv_eq]
    obtain ⟨b', t', hbt, hk, hsel, hev⟩ := sceneInvB_elim _ hs
    rw [hsc] at hbt
    cases hbt
    exact ⟨sceneInvB_cons_of _ _ hk hsel hev, hu, hr, h1, h2, h3, h4, h5, h6⟩

theorem editorInv_finishPath (path : FabObj) (ed : Editor)
    (h : editorInv ed = true) : editorInv (finishPath path ed) = true := by
  have hparts := (editorInv_eq ed).mp h
  obtain ⟨hs, hu, hr, h1, h2, h3, h4, h5, h6⟩ := hparts
  apply editorInv_editorPush
  rw [editorInv_eq]
  exact ⟨sceneInvB_append _ _ hs, hu, hr, h1, h2, h3, h4, h5, h6⟩

theorem editorInv_mkRectDown (isCrop : Bool) (p : ℚ × ℚ) (ed : Editor)
    (h : editorInv ed = true) : editorInv (mkRectDown isCrop p ed) = true := by
  have hparts := (editorInv_eq ed).mp h
  obtain ⟨hs, hu, hr, h1, h2, h3, h4, h5, h6⟩ := hparts
  rw [editorInv_eq]
  exact ⟨sceneInvB_append _ _ hs, hu, hr,
    refOkB_of_ge (length_pos_of_sceneInvB _ hs), h2, h3, h4, h5, h6⟩

theorem editorInv_pointerDown (p : ℚ × ℚ) (ed : Editor)
    (h : editorInv ed = true) : editorInv (pointerDown p ed) = true := by
  have hparts := (editorInv_eq ed).mp h
  obtain ⟨hs, hu, hr, h1, h2, h3, h4, h5, h6⟩ := hparts
  unfold pointerDown
  split
  · exact h
  · split
    · -- text
      rw [editorInv_eq]
      exact ⟨sceneInvB_append _ _ hs, hu, hr, h1, h2,
        refOkB_of_ge (length_pos_of_sceneInvB _ hs), h4, h5, h6⟩
    · -- arrow
      rw [editorInv_eq]
      refine ⟨sceneInvB_append _ _ hs, hu, hr, h1, h2, h3,
        refOkB_of_ge (length_pos_of_sceneInvB _ hs), refOkB_of_ge ?_, h6⟩
      have := length_pos_of_sceneInvB _ hs
      omega
    · -- circle
      rw [editorInv_eq]
      exact ⟨sceneInvB_append _ _ hs, hu, hr, h1,
        refOkB_of_ge (length_pos_of_sceneInvB _ hs), h3, h4, h5, h6⟩
    · exact editorInv_mkRectDown false p ed h
    · exact editorInv_mkRectDown true p ed h
    · exact h

theorem sceneInvB_updAt_ref (s : List FabObj) (k : ℕ) (f : FabObj → FabObj)
    (hk : refOkB (Option.some k) = true) (h : sceneInvB s = true) :
    sceneInvB (updAt s k f) = true := by
  obtain ⟨j, rfl⟩ : ∃ j, k = j + 1 := ⟨k - 1, by have := refOkB_some_elim hk; omega⟩
  exact sceneInvB_updAt_succ _ _ _ h

theorem editorInv_pointerMove (at2 : ℚ → ℚ → ℚ) (p : ℚ × ℚ) (ed : Editor)
    (h : editorInv ed = true) : editorInv (pointerMove at2 p ed) = true := by
  have hparts := (editorInv_eq ed).mp h
  obtain ⟨hs, hu, hr, h1, h2, h3, h4, h5, h6⟩ := hparts
  unfold pointerMove
  split
  · exact h
  · split
    · -- arrow
      split
      · split
        · rename_i li hi hl hh
          rw [editorInv_eq]
          exact ⟨sceneInvB_updAt_ref _ _ _ (hh ▸ h5)
            (sceneInvB_updAt_ref _ _ _ (hl ▸ h4) hs), hu, hr, h1, h2, h3, h4, h5, h6⟩
        · exact h
      · exact h
    · -- circle
      split
      · split
        · rename_i i hi
          rw [editorInv_eq]
          exact ⟨sceneInvB_updAt_ref _ _ _ (hi ▸ h2) hs, hu, hr, h1, h2, h3, h4, h5, h6⟩
        · exact h
      · exact h
    · -- text
      split
      · split
        · rename_i i hi
          rw [editorInv_eq]
          exact ⟨sceneInvB_updAt_ref _ _ _ (hi ▸ h3) hs, hu, hr, h1, h2, h3, h4, h5, h6⟩
        · exact h
      · exact h
    · -- rect
      split
      · split
        · rename_i i hi
          rw [editorInv_eq]
          exact ⟨sceneInvB_updAt_ref _ _ _ (hi ▸ h1) hs, hu, hr, h1, h2, h3, h4, h5, h6⟩
        · exact h
      · exact h
    · -- crop
      split
      · split
        · rename_i i hi
          rw [editorInv_eq]
          exact ⟨sceneInvB_updAt_ref _ _ _ (hi ▸ h1) hs, hu, hr, h1, h2, h3, h4, h5, h6⟩
        · exact h
      · exact h
    · exact h

theorem editorInv_pointerUp (ed : Editor) (h : editorInv ed = true) :
    editorInv (pointerUp ed) = true := by
  have hparts := (editorInv_eq ed).mp h
  obtain ⟨hs, hu, hr, h1, h2, h3, h4, h5, h6⟩ := hparts
  unfold pointerUp
  split
  · exact h
  · split
    · -- arrow
      apply editorInv_setToolOnly
      apply editorInv_editorPush
      rw [editorInv_eq]
      refine ⟨?_, hu, hr, h1, h2, h3, rfl, rfl, h6⟩
      cases hl : ed.arrowLine with
      | none =>
          cases hh : ed.arrowHead with
          | none => exact hs
          | some hi => exact sceneInvB_updAt_ref _ _ _ (hh ▸ h5) hs
      | some li =>
          cases hh : ed.arrowHead with
          | none => exact sceneInvB_updAt_ref _ _ _ (hl ▸ h4) hs
          | some hi =>
              exact sceneInvB_updAt_ref _ _ _ (hh ▸ h5)
                (sceneInvB_updAt_ref _ _ _ (hl ▸ h4) hs)
    · -- rect
      apply editorInv_setToolOnly
      apply editorInv_editorPush
      rw [editorInv_eq]
      refine ⟨?_, hu, hr, rfl, h2, h3, h4, h5, h6⟩
      cases hl : ed.rectObj with
      | none => exact hs
      | some i => exact sceneInvB_updAt_ref _ _ _ (hl ▸ h1) hs
    · -- circle
      apply editorInv_setToolOnly
      apply editorInv_editorPush
      rw [editorInv_eq]
      refine ⟨?_, hu, hr, h1, rfl, h3, h4, h5, h6⟩
      cases hl : ed.circleObj with
      | none => exact hs
      | some i => exact sceneInvB_updAt_ref _ _ _ (hl ▸ h2) hs
    · -- text
      split
      · apply editorInv_setToolOnly
        rw [editorInv_eq]
        exact ⟨hs, hu, hr, h1, h2, h3, h4, h5, h6⟩
      · rename_i i hg
        split
        · apply editorInv_setToolOnly
          rw [editorInv_eq]
          exact ⟨hs, hu, hr, h1, h2, rfl, h4, h5, h6⟩
        · rename_i guide hgi
          obtain ⟨j, rfl⟩ : ∃ j, i = j + 1 :=
            ⟨i - 1, by have := refOkB_some_elim (hg ▸ h3); omega⟩
          apply editorInv_setToolOnly
          apply editorInv_editorPush
          rw [editorInv_eq]
          exact ⟨sceneInvB_append _ _ (sceneInvB_eraseIdx_succ _ _ hs), hu, hr,
            h1, h2, rfl, h4, h5, h6⟩
    · -- crop
      split
      · apply editorInv_setToolOnly
        rw [editorInv_eq]
        exact ⟨hs, hu, hr, h1, h2, h3, h4, h5, h6⟩
      · rename_i i hg
        split
        · apply editorInv_setToolOnly
          rw [editorInv_eq]
          exact ⟨hs, hu, hr, rfl, h2, h3, h4, h5, h6⟩
        · rename_i rect hgi
          split
          · obtain ⟨j, rfl⟩ : ∃ j, i = j + 1 :=
              ⟨i - 1, by have := refOkB_some_elim (hg ▸ h1); omega⟩
            apply editorInv_setToolOnly
            rw [editorInv_eq]
            exact ⟨sceneInvB_eraseIdx_succ _ _ hs, hu, hr, rfl, h2, h3, h4, h5, h6⟩
          · apply editorInv_setToolOnly
            rw [editorInv_eq]
            exact ⟨hs, hu, hr, rfl, h2, h3, h4, h5, hg ▸ h1⟩
    · exact h

theorem editorInv_clickTool (t : Tool) (ed : Editor) (h : editorInv ed = true) :
    editorInv (clickTool t ed) = true := by
  unfold clickTool
  split
  · exact editorInv_setToolOnly _ _ (editorInv_cancelCrop _ h)
  · exact editorInv_setToolOnly _ _ h

theorem step_preserves (at2 : ℚ → ℚ → ℚ) {ed ed' : Editor}
    (h : editorInv ed = true) (st : Step at2 ed ed') : editorInv ed' = true := by
  cases st with
  | down p _ => exact editorInv_pointerDown p ed h
  | move p _ => exact editorInv_pointerMove at2 p ed h
  | up _ => exact editorInv_pointerUp ed h
  | toolClick t _ => exact editorInv_clickTool t ed h
  | undo _ => exact editorInv_editorUndo ed h
  | redo _ => exact editorInv_editorRedo ed h
  | cancel _ => exact editorInv_cancelCrop ed h
  | applyOk url cw0 ch0 _ => exact editorInv_applyCropSuccess url cw0 ch0 ed h
  | applyFail _ => exact editorInv_applyCropFail ed h
  | pathDone path _ => exact editorInv_finishPath path ed h
  | modified _ => exact editorInv_editorPush ed h
  | removeSel sel _ => exact editorInv_removeSelected sel ed h
  | clear _ => exact editorInv_clearAll ed h
  | reload imgW imgH cw0 ch0 _ =>
      have hparts := (editorInv_eq ed).mp h
      obtain ⟨hs, hu, hr, h1, h2, h3, h4, h5, h6⟩ := hparts
      exact editorInv_rebuild imgW imgH cw0 ch0 ed hu h1 h2 h3 h4 h5 h6

theorem reachable_editorInv (at2 : ℚ → ℚ → ℚ) {ed0 ed : Editor}
    (h0 : editorInv ed0 = true)
    (hreach : Relation.ReflTransGen (Step at2) ed0 ed) : editorInv ed = true := by
  induction hreach with
  | refl => exact h0
  | tail _ st ih => exact step_preserves at2 ih st

theorem jsRound_nonneg (x : ℚ) (hx : 0 ≤ x) : 0 ≤ jsRound x := by
  unfold jsRound
  have h : (0 : ℚ) ≤ x + 1 / 2 := by linarith
  exact Int.floor_nonneg.mpr h

theorem jsRound_eq (x : ℚ) (z : ℤ) (h1 : (z : ℚ) ≤ x + 1 / 2)
    (h2 : x + 1 / 2 < z + 1) : jsRound x = z := by
  unfold jsRound
  exact Int.floor_eq_iff.mpr ⟨h1, h2⟩

/-- C6: for every image size and surface size the Coordinate Mapper computes
`scale = min(surfaceW/imageW, surfaceH/imageH, 2)`, the drawn size never
exceeds the surface, and the offsets center the scaled image (the defensive
`Math.max(0, _)` is redundant); in particular for surface 1280x760 and image
800x600 the scale is 19/15 = 1.2667 (760/600), the drawn size rounds to
1013x760, offsetX = 133 and offsetY = 0. -/
theorem C6_coordinate_mapper (iw ih cw ch : ℚ) (hiw : 0 < iw) (hih : 0 < ih) :
    (computeFit iw ih cw ch).scale = min (min (cw / iw) (ch / ih)) 2 ∧
    (computeFit iw ih cw ch).drawnW = iw * (computeFit iw ih cw ch).scale ∧
    (computeFit iw ih cw ch).drawnH = ih * (computeFit iw ih cw ch).scale ∧
    (computeFit iw ih cw ch).scale ≤ 2 ∧
    (computeFit iw ih cw ch).drawnW ≤ cw ∧
    (computeFit iw ih cw ch).drawnH ≤ ch ∧
    (computeFit iw ih cw ch).offsetX =
      jsRound ((cw - (computeFit iw ih cw ch).drawnW) / 2) ∧
    (computeFit iw ih cw ch).offsetY =
      jsRound ((ch - (computeFit iw ih cw ch).drawnH) / 2) ∧
    (computeFit 800 600 1280 760).scale = 19 / 15 ∧
    (computeFit 800 600 1280 760).drawnH = 760 ∧
    jsRound (computeFit 800 600 1280 760).drawnW = 1013 ∧
    (computeFit 800 600 1280 760).offsetX = 133 ∧
    (computeFit 800 600 1280 760).offsetY = 0 := by
  have hsW : min (min (cw / iw) (ch / ih)) 2 ≤ cw / iw :=
    le_trans (min_le_left _ _) (min_le_left _ _)
  have hsH : min (min (cw / iw) (ch / ih)) 2 ≤ ch / ih :=
    le_trans (min_le_left _ _) (min_le_right _ _)
  have hdW : iw * min (min (cw / iw) (ch / ih)) 2 ≤ cw := by
    have h := mul_le_mul_of_nonneg_left hsW (le_of_lt hiw)
    have h2 : iw * (cw / iw) = cw := by field_simp
    linarith
  have hdH : ih * min (min (cw / iw) (ch / ih)) 2 ≤ ch := by
    have h := mul_le_mul_of_nonneg_left hsH (le_of_lt hih)
    have h2 : ih * (ch / ih) = ch := by field_simp
    linarith
  have hoX : (0 : ℚ) ≤ (cw - iw * min (min (cw / iw) (ch / ih)) 2) / 2 := by linarith
  have hoY : (0 : ℚ) ≤ (ch - ih * min (min (cw / iw) (ch / ih)) 2) / 2 := by linarith
  have hA1 : min (min ((1280 : ℚ) / 800) ((760 : ℚ) / 600)) 2 = 19 / 15 := by
    norm_num [min_def]
  have hsA : (computeFit 800 600 1280 760).scale = 19 / 15 := hA1
  have hhA : (computeFit 800 600 1280 760).drawnH = 760 := by
    show (600 : ℚ) * min (min ((1280 : ℚ) / 800) ((760 : ℚ) / 600)) 2 = 760
    rw [hA1]; norm_num
  have hwA : (computeFit 800 600 1280 760).drawnW = 3040 / 3 := by
    show (800 : ℚ) * min (min ((1280 : ℚ) / 800) ((760 : ℚ) / 600)) 2 = 3040 / 3
    rw [hA1]; norm_num
  have hrW : jsRound (computeFit 800 600 1280 760).drawnW = 1013 := by
    rw [hwA]
    apply jsRound_eq <;> norm_num
  have hoXA : (computeFit 800 600 1280 760).offsetX = 133 := by
    show max 0 (jsRound ((1280 - (computeFit 800 600 1280 760).drawnW) / 2)) = 133
    rw [hwA]
    have h3 : ((1280 : ℚ) - 3040 / 3) / 2 = 400 / 3 := by norm_num
    rw [h3, jsRound_eq (400 / 3) 133 (by norm_num) (by norm_num)]
    norm_num
  have hoYA : (computeFit 800 600 1280 760).offsetY = 0 := by
    show max 0 (jsRound ((760 - (computeFit 800 600 1280 760).drawnH) / 2)) = 0
    rw [hhA]
    have h3 : ((760 : ℚ) - 760) / 2 = 0 := by norm_num
    rw [h3, jsRound_eq 0 0 (by norm_num) (by norm_num)]
    norm_num
  exact ⟨rfl, rfl, rfl, min_le_right _ _, hdW, hdH,
    max_eq_right (jsRound_nonneg _ hoX), max_eq_right (jsRound_nonneg _ hoY),
    hsA, hhA, hrW, hoXA, hoYA⟩

/-- Witness for C6 at Scenario A's concrete input. -/
theorem C6_coordinate_mapper_witness :
    (computeFit 800 600 1280 760).scale =
        min (min ((1280 : ℚ) / 800) ((760 : ℚ) / 600)) 2 ∧
      (computeFit 800 600 1280 760).scale = 19 / 15 ∧
      (computeFit 800 600 1280 760).offsetX = 133 := by
  have h := C6_coordinate_mapper 800 600 1280 760 (by norm_num) (by norm_num)
  exact ⟨h.1, h.2.2.2.2.2.2.2.2.1, h.2.2.2.2.2.2.2.2.2.2.2.1⟩

theorem head?_dropLast_cons {α : Type} (a : α) (u : List α) (hu : u ≠ []) :
    ((a :: u).dropLast).head? = some a := by
  cases u with
  | nil => exact absurd rfl hu
  | cons b v => rfl

theorem dropLast_cons_ne {α : Type} (a : α) (u : List α) (hu : u ≠ []) :
    (a :: u).dropLast = a :: u.dropLast := by
  cases u with
  | nil => exact absurd rfl hu
  | cons b v => rfl

/-- Dedup law of `pushHistory`: pushing the snapshot already at the top of
the undo stack is the identity. -/
theorem pushHistory_dedup (h : History) (snap : Snapshot)
    (hh : h.undo.head? = some snap) : pushHistory h snap = h := by
  unfold pushHistory
  rw [if_pos hh]

theorem pushHistory_head (h : History) (snap : Snapshot) :
    (pushHistory h snap).undo.head? = some snap := by
  unfold pushHistory
  by_cases hh : h.undo.head? = some snap
  · rw [if_pos hh]; exact hh
  · rw [if_neg hh]
    by_cases hlen : (snap :: h.undo).length > 50
    · rw [if_pos hlen]
      apply head?_dropLast_cons
      intro hnil
      rw [hnil] at hlen
      simp at hlen
    · rw [if_neg hlen]; rfl

/-- C7: committing a snapshot structurally identical to the current top is
idempotent: the duplicate is discarded, the undo stack does not grow, and two
consecutive commits of the same scene snapshot leave exactly one entry for
that state at the top of the stack. -/
theorem C7_duplicate_commit_idempotent (h : History) (snap : Snapshot)
    (hnew : snap ∉ h.undo) :
    pushHistory (pushHistory h snap) snap = pushHistory h snap ∧
    (pushHistory h snap).undo.count snap = 1 ∧
    (pushHistory (pushHistory h snap) snap).undo.count snap = 1 ∧
    (pushHistory (pushHistory h snap) snap).undo.length =
      (pushHistory h snap).undo.length := by
  have hsecond : pushHistory (pushHistory h snap) snap = pushHistory h snap :=
    pushHistory_dedup _ _ (pushHistory_head h snap)
  have hne : ¬ (h.undo.head? = some snap) := by
    intro hcontra
    exact hnew (List.mem_of_mem_head? hcontra)
  have hcount : (pushHistory h snap).undo.count snap = 1 := by
    unfold pushHistory
    rw [if_neg hne]
    by_cases hlen : (snap :: h.undo).length > 50
    · rw [if_pos hlen]
      have hnil : h.undo ≠ [] := by
        intro hn; rw [hn] at hlen; simp at hlen
      show ((snap :: h.undo).dropLast).count snap = 1
      rw [dropLast_cons_ne _ _ hnil, List.count_cons_self]
      have : snap ∉ h.undo.dropLast := fun hmem =>
        hnew (List.dropLast_subset _ hmem)
      rw [List.count_eq_zero.mpr this]
    · rw [if_neg hlen]
      show (snap :: h.undo).count snap = 1
      rw [List.count_cons_self, List.count_eq_zero.mpr hnew]
  exact ⟨hsecond, hcount, by rw [hsecond]; exact hcount, by rw [hsecond]⟩

/-- A base-image object used for concrete witness states: the decoded
working image, fitted at scale 1, never selectable nor evented. -/
def objA : FabObj :=
  { kind := ObjKind.image
    left := 0
    top := 0
    width := 800
    height := 600
    selectable := false
    evented := false
    src := "orig" }

/-- A second, structurally different base image (an older working image). -/
def objA2 : FabObj := { objA with src := "older" }

/-- A committed rectangle annotation used in concrete witness states. -/
def objB : FabObj :=
  { kind := ObjKind.rect
    left := 10
    top := 20
    width := 50
    height := 40
    stroke := "#ef4444"
    strokeWidth := 6
    fill := "rgba(0,0,0,0)"
    selectable := false
    evented := false }

/-- A freshly opened editor: base image decoded, initial snapshot seeded,
no tool active, no pending crop. -/
def baseEditor : Editor :=
  { scene := [objA]
    tool := Tool.none
    hist := { undo := [[objA]], redo := [] }
    cropPending := Option.none
    cropRect := Option.none
    isDrawingRect := false
    rectObj := Option.none
    isDrawingCircle := false
    circleObj := Option.none
    isDrawingTextBox := false
    textGuide := Option.none
    textBoxStart := (0, 0)
    dragStart := (0, 0)
    arrowDrawing := false
    arrowX0 := 0
    arrowY0 := 0
    arrowLine := Option.none
    arrowHead := Option.none
    strokeColor := "#ef4444"
    strokeWidth := 6
    workingUrl := "orig"
    canvasW := 1280
    canvasH := 760
    imageLoadError := "" }

/-- Witness for C7: push the same snapshot twice onto a seeded history. -/
theorem C7_duplicate_commit_idempotent_witness :
    pushHistory (pushHistory { undo := [[objA]], redo := [] } [objB]) [objB] =
        pushHistory { undo := [[objA]], redo := [] } [objB] ∧
      (pushHistory { undo := [[objA]], redo := [] } [objB]).undo.count [objB] = 1 :=
  ⟨(C7_duplicate_commit_idempotent { undo := [[objA]], redo := [] } [objB]
      (by decide)).1,
    (C7_duplicate_commit_idempotent { undo := [[objA]], redo := [] } [objB]
      (by decide)).2.1⟩

/-- Well-formedness of the history stacks once the initial snapshot is
seeded: the undo stack is never empty and undo and redo together never hold
more than 50 snapshots. -/
def histWF (h : History) : Prop :=
  1 ≤ h.undo.length ∧ h.undo.length + h.redo.length ≤ 50

instance (h : History) : Decidable (histWF h) := by
  unfold histWF
  infer_instance

/-- C4 amended: once seeded, the stack-length invariant (undo length in
`[1, 50]`) is preserved by `pushHistory`, `handleUndo` and `handleRedo`;
`handleUndo` is a no-op on a stack of at most one entry; at 50 entries a
non-duplicate `pushHistory` evicts the oldest entry instead of growing; and
every non-deduplicated `pushHistory` clears the redo stack.  (The crop
rebuild's uncapped push is excluded: it can grow the stack to 51 — see the
counterexample.) -/
theorem C4_amended_capped_ops (h : History) (snap : Snapshot) (hwf : histWF h) :
    histWF (pushHistory h snap) ∧
    histWF (histUndo h) ∧
    histWF (histRedo h) ∧
    (h.undo.head? ≠ some snap → (pushHistory h snap).redo = []) ∧
    (h.undo.length ≤ 1 → histUndo h = h) ∧
    (h.undo.length = 50 → h.undo.head? ≠ some snap →
      (pushHistory h snap).undo = snap :: h.undo.dropLast) := by
  obtain ⟨hlo, hhi⟩ := hwf
  refine ⟨?_, ?_, ?_, ?_, ?_, ?_⟩
  · unfold pushHistory
    by_cases hh : h.undo.head? = some snap
    · rw [if_pos hh]; exact ⟨hlo, hhi⟩
    · rw [if_neg hh]
      by_cases hlen : (snap :: h.undo).length > 50
      · rw [if_pos hlen]
        constructor
        · simp only [List.length_dropLast, List.length_cons]
          omega
        · simp only [List.length_dropLast, List.length_cons, List.length_nil]
          omega
      · rw [if_neg hlen]
        constructor
        · simp
        · simp only [List.length_cons, List.length_nil]
          simp only [List.length_cons] at hlen
          omega
  · unfold histUndo
    rcases hu : h.undo with _ | ⟨a, _ | ⟨b, t⟩⟩
    · rw [hu] at hlo; simp at hlo
    · exact ⟨hlo, hhi⟩
    · rw [hu] at hhi
      simp only [List.length_cons] at hhi
      exact ⟨by simp, by simp only [List.length_cons]; omega⟩
  · unfold histRedo
    rcases hrr : h.redo with _ | ⟨a, t⟩
    · exact ⟨hlo, hhi⟩
    · rw [hrr] at hhi
      simp only [List.length_cons] at hhi
      exact ⟨by simp, by simp only [List.length_cons]; omega⟩
  · intro hh
    unfold pushHistory
    rw [if_neg hh]
    by_cases hlen : (snap :: h.undo).length > 50
    · rw [if_pos hlen]
    · rw [if_neg hlen]
  · intro hone
    unfold histUndo
    rcases hu : h.undo with _ | ⟨a, _ | ⟨b, t⟩⟩
    · rfl
    · rfl
    · rw [hu] at hone; simp at hone
  · intro h50 hh
    unfold pushHistory
    rw [if_neg hh]
    have hlen : (snap :: h.undo).length > 50 := by
      simp only [List.length_cons, h50]
      omega
    rw [if_pos hlen]
    have hnil : h.undo ≠ [] := by
      intro hn; rw [hn] at h50; simp at h50
    show (snap :: h.undo).dropLast = snap :: h.undo.dropLast
    exact dropLast_cons_ne _ _ hnil

/-- Witness for C4's amended theorem at a seeded single-snapshot history. -/
theorem C4_amended_capped_ops_witness :
    histWF (pushHistory { undo := [[objA]], redo := [] } [objB]) ∧
      histWF (histUndo { undo := [[objA]], redo := [] }) :=
  ⟨(C4_amended_capped_ops { undo := [[objA]], redo := [] } [objB] (by decide)).1,
    (C4_amended_capped_ops { undo := [[objA]], redo := [] } [objB] (by decide)).2.1⟩

/-- A full undo stack: 50 pairwise distinct snapshots (distinguished by
length), as produced by 50 capped commits. -/
def deepHist : History :=
  { undo := (List.range 50).map (fun i => List.replicate (i + 1) objB)
    redo := [] }

/-- C4 counterexample: the claim says every operation preserves the 50-entry
cap, but the crop-apply rebuild push (`rebuildPush`, rebuild effect lines
356-367) has no cap: at 50 entries it grows the undo stack to 51. -/
theorem C4_counterexample_rebuildPush_uncapped :
    deepHist.undo.length = 50 ∧
    histWF deepHist ∧
    (rebuildPush (List.replicate 51 objB) deepHist).undo.length = 51 ∧
    ¬ histWF (rebuildPush (List.replicate 51 objB) deepHist) := by decide

theorem editorUndo_shape (ed : Editor) (a b : Snapshot) (t : List Snapshot)
    (hh : ed.hist.undo = a :: b :: t) :
    editorUndo ed =
      { editorRestore b ed with
        hist := { undo := b :: t, redo := a :: ed.hist.redo } } := by
  unfold editorUndo
  rw [hh]

theorem editorRedo_shape (ed : Editor) (a : Snapshot) (t : List Snapshot)
    (hh : ed.hist.redo = a :: t) :
    editorRedo ed =
      { editorRestore a ed with
        hist := { undo := a :: ed.hist.undo, redo := t } } := by
  unfold editorRedo
  rw [hh]

theorem editorPush_shape (ed : Editor) (pre : Snapshot) (rest : List Snapshot)
    (hstack : ed.hist.undo = pre :: rest) (hne : snapshotOf ed.scene ≠ pre) :
    ∃ rest2, (editorPush ed).hist =
      { undo := snapshotOf ed.scene :: pre :: rest2, redo := [] } := by
  unfold editorPush pushHistory
  rw [hstack]
  have hcond : ¬ ((pre :: rest).head? = some (snapshotOf ed.scene)) := by
    simp only [List.head?_cons, Option.some.injEq]
    exact fun hc => hne hc.symm
  rw [if_neg hcond]
  by_cases hlen : (snapshotOf ed.scene :: pre :: rest).length > 50
  · rw [if_pos hlen]
    refine ⟨rest.dropLast, ?_⟩
    have hnil : rest ≠ [] := by
      intro hn; rw [hn] at hlen; simp at hlen
    have hd : (snapshotOf ed.scene :: pre :: rest).dropLast
        = snapshotOf ed.scene :: pre :: rest.dropLast := by
      rw [dropLast_cons_ne _ _ (by simp), dropLast_cons_ne _ _ hnil]
    rw [hd]
  · rw [if_neg hlen]
    exact ⟨rest, rfl⟩

/-- C3 amended: immediately after a committed (non-deduplicated) mutation,
`undo()` restores the Scene rebuilt from the pre-commit snapshot by
`restoreFromJson`, which re-asserts the base image and re-applies the current
tool's selectable/evented policy; when the pre-commit and post-commit
snapshots are stable under that policy, `undo()` restores a scene
structurally equal to the pre-commit snapshot and `redo()` then restores the
post-commit snapshot, returning the history stacks to their exact
post-commit state; at the stack level `undo` and `redo` are exact inverses
along the linear history unconditionally. -/
theorem C3_undo_redo_exact_inverse (ed : Editor) (pre : Snapshot)
    (rest : List Snapshot)
    (hstack : ed.hist.undo = pre :: rest)
    (hne : snapshotOf ed.scene ≠ pre)
    (hpre : restoreScene ed.tool pre = pre)
    (hcur : restoreScene ed.tool (snapshotOf ed.scene) = snapshotOf ed.scene) :
    (editorUndo (editorPush ed)).scene = pre ∧
    (editorRedo (editorUndo (editorPush ed))).scene = snapshotOf ed.scene ∧
    (editorRedo (editorUndo (editorPush ed))).hist = (editorPush ed).hist ∧
    (∀ g : History, 2 ≤ g.undo.length → histRedo (histUndo g) = g) ∧
    (∀ g : History, g.redo ≠ [] → g.undo ≠ [] → histUndo (histRedo g) = g) := by
  obtain ⟨rest2, hhist⟩ := editorPush_shape ed pre rest hstack hne
  have h1 := editorUndo_shape (editorPush ed) (snapshotOf ed.scene) pre rest2
    (by rw [hhist])
  have hscene1 : (editorUndo (editorPush ed)).scene = pre := by
    rw [h1]; exact hpre
  have hredo1 : (editorUndo (editorPush ed)).hist.redo =
      [snapshotOf ed.scene] := by
    rw [h1, hhist]
  have h2 := editorRedo_shape (editorUndo (editorPush ed))
    (snapshotOf ed.scene) [] hredo1
  have htool1 : (editorUndo (editorPush ed)).tool = ed.tool := by rw [h1]; rfl
  refine ⟨hscene1, ?_, ?_, ?_, ?_⟩
  · rw [h2]
    show restoreScene (editorUndo (editorPush ed)).tool (snapshotOf ed.scene) =
      snapshotOf ed.scene
    rw [htool1]
    exact hcur
  · rw [h2, h1, hhist]
  · intro g hg
    obtain ⟨gu, gr⟩ := g
    rcases gu with _ | ⟨a, _ | ⟨b, t⟩⟩
    · simp at hg
    · simp at hg
    · rfl
  · intro g hgr hgu
    obtain ⟨gu, gr⟩ := g
    rcases gr with _ | ⟨a, t⟩
    · exact absurd rfl hgr
    · rcases gu with _ | ⟨c, cs⟩
      · exact absurd rfl hgu
      · rfl

/-- An editor one committed state past its baseline: current scene `[objA]`,
undo stack holding the older baseline snapshot `[objA2]`. -/
def edC3 : Editor := { baseEditor with hist := { undo := [[objA2]], redo := [] } }

/-- Witness for C3: a concrete commit on `edC3`, undone and redone. -/
theorem C3_undo_redo_exact_inverse_witness :
    (editorUndo (editorPush edC3)).scene = [objA2] ∧
      (editorRedo (editorUndo (editorPush edC3))).scene = snapshotOf edC3.scene :=
  ⟨(C3_undo_redo_exact_inverse edC3 [objA2] [] (by decide) (by decide)
      (by decide) (by decide)).1,
    (C3_undo_redo_exact_inverse edC3 [objA2] [] (by decide) (by decide)
      (by decide) (by decide)).2.1⟩

/-- C10 (implicit): every single-drag tool is one-shot.  With no pending
crop, a completed pointer-up for the arrow, rect, circle or text tool, and
the end of a crop drag (whether it becomes a pending crop, is discarded as
too small, or finds no transient), always resets the active tool to
`'none'`. -/
theorem C10_single_drag_tools_reset (ed : Editor)
    (hcp : ed.cropPending = Option.none)
    (ht : ed.tool = Tool.arrow ∨ ed.tool = Tool.rect ∨ ed.tool = Tool.circle ∨
      ed.tool = Tool.text ∨ ed.tool = Tool.crop) :
    (pointerUp ed).tool = Tool.none := by
  unfold pointerUp
  rcases ht with h | h | h | h | h <;> simp only [hcp, h]
  · rfl
  · rfl
  · rfl
  · split
    · rfl
    · split
      · rfl
      · rfl
  · split
    · rfl
    · split
      · rfl
      · split
        · rfl
        · rfl

/-- Witness for C10: pointer-up with the rect tool on a fresh editor. -/
theorem C10_single_drag_tools_reset_witness :
    (pointerUp { baseEditor with tool := Tool.rect }).tool = Tool.none :=
  C10_single_drag_tools_reset { baseEditor with tool := Tool.rect } rfl
    (Or.inr (Or.inl rfl))

/-- The editor after selecting the rect tool on a fresh editor and performing
a pointer-down at (100, 100) followed immediately by pointer-up: a 1x1 drag,
far below 5 surface units in both axes. -/
def edC1 : Editor := pointerUp (pointerDown (100, 100) (clickTool Tool.rect baseEditor))

/-- C1 counterexample: a rect-tool drag of width 1 and height 1 (< 5) DOES
leave a persistent object after pointer-up — the transient 1x1 rectangle
stays in the Scene, is promoted (selectable/evented in the committed
snapshot), and is committed to the undo stack; it is not removed. -/
theorem C1_counterexample_rect_promotes_tiny_drag :
    edC1.scene.length = 2 ∧
    (edC1.scene[1]?).map (fun o => (o.kind, o.width, o.height)) =
      some (ObjKind.rect, 1, 1) ∧
    edC1.hist.undo.head?.map (fun snap => snap.map (fun o => o.selectable)) =
      some [false, true] ∧
    edC1.hist.undo.length = 2 ∧
    edC1.cropPending = Option.none := by decide

/-- C1 amended: only the crop tool discards small drags.  On pointer-up,
if the tool is crop and the rounded drag width or height is below 5 the
transient guide is removed and no pending-crop state is left; for the rect
and circle tools pointer-up promotes the transient to selectable/evented and
commits it to history regardless of drag size. -/
theorem C1_amended_only_crop_discards_small (s : List FabObj) (r : FabObj)
    (ed : Editor) (hscene : ed.scene = s ++ [r])
    (hcp : ed.cropPending = Option.none) :
    (ed.tool = Tool.crop → ed.rectObj = Option.some s.length →
      ed.cropRect = Option.none →
      (jsRound r.width < 5 ∨ jsRound r.height < 5) →
      (pointerUp ed).scene = applyWiring Tool.none s ∧
      (pointerUp ed).cropPending = Option.none ∧
      (pointerUp ed).cropRect = Option.none ∧
      (pointerUp ed).tool = Tool.none) ∧
    (ed.tool = Tool.rect → ed.rectObj = Option.some s.length →
      (pointerUp ed).scene =
        applyWiring Tool.none
          (s ++ [{ r with selectable := true, evented := true }]) ∧
      (pointerUp ed).hist.undo.head? =
        some (snapshotOf (s ++ [{ r with selectable := true, evented := true }])) ∧
      (pointerUp ed).tool = Tool.none) ∧
    (ed.tool = Tool.circle → ed.circleObj = Option.some s.length →
      (pointerUp ed).scene =
        applyWiring Tool.none
          (s ++ [{ r with selectable := true, evented := true }]) ∧
      (pointerUp ed).hist.undo.head? =
        some (snapshotOf (s ++ [{ r with selectable := true, evented := true }])) ∧
      (pointerUp ed).tool = Tool.none) := by
  refine ⟨?_, ?_, ?_⟩
  · intro ht hro hcr hsmall
    unfold pointerUp
    simp only [hcp, ht, hro, hscene, getElem_append_len]
    rw [if_pos hsmall]
    refine ⟨?_, rfl, hcr, rfl⟩
    show applyWiring Tool.none ((s ++ [r]).eraseIdx s.length) = applyWiring Tool.none s
    rw [eraseIdx_append_len]
  · intro ht hro
    unfold pointerUp
    simp only [hcp, ht, hro, hscene, promoteAt_append_len]
    exact ⟨rfl, pushHistory_head _ _, rfl⟩
  · intro ht hco
    unfold pointerUp
    simp only [hcp, ht, hco, hscene, promoteAt_append_len]
    exact ⟨rfl, pushHistory_head _ _, rfl⟩

/-- The transient 1x1 dashed crop guide created by a crop pointer-down at
(100, 100) with the default stroke width. -/
def cropGuide1 : FabObj :=
  { kind := ObjKind.rect
    left := 100
    top := 100
    width := 1
    height := 1
    fill := "rgba(16,185,129,0.08)"
    stroke := "#10b981"
    strokeWidth := 6
    dashed := true
    selectable := false
    evented := false }

/-- Witness for C1's amended theorem: a concrete too-small crop drag is
discarded without pending state, on the editor mid-way through a 1x1 crop
drag. -/
theorem C1_amended_only_crop_discards_small_witness :
    (pointerUp (pointerDown (100, 100) (clickTool Tool.crop baseEditor))).scene =
        applyWiring Tool.none [objA] ∧
      (pointerUp (pointerDown (100, 100)
        (clickTool Tool.crop baseEditor))).cropPending = Option.none :=
  ⟨((C1_amended_only_crop_discards_small [objA] cropGuide1
        (pointerDown (100, 100) (clickTool Tool.crop baseEditor))
        (by decide) (by decide)).1 (by decide) (by decide) (by decide)
      (Or.inl (by
        rw [jsRound_eq cropGuide1.width 1 (by norm_num [cropGuide1])
          (by norm_num [cropGuide1])]
        norm_num))).1,
    ((C1_amended_only_crop_discards_small [objA] cropGuide1
        (pointerDown (100, 100) (clickTool Tool.crop baseEditor))
        (by decide) (by decide)).1 (by decide) (by decide) (by decide)
      (Or.inl (by
        rw [jsRound_eq cropGuide1.width 1 (by norm_num [cropGuide1])
          (by norm_num [cropGuide1])]
        norm_num))).2.1⟩

theorem applyWiring_length (t : Tool) (s : List FabObj) :
    (applyWiring t s).length = s.length := by
  cases s <;> simp [applyWiring]

/-- The editor mid-way through a rect drag: rect tool selected, pointer-down
at (100, 100), pointer not yet released. -/
def edC9mid : Editor := pointerDown (100, 100) (clickTool Tool.rect baseEditor)

/-- C9 counterexample: switching tools while a rect drag is mid-flight does
NOT abandon the drag — the transient rectangle stays in the Scene (and under
the select tool even becomes selectable/evented), and the drag-in-progress
refs (`rectObjRef`, `isDrawingRectRef`) survive the switch. -/
theorem C9_counterexample_transient_survives_switch :
    edC9mid.scene.length = 2 ∧
    edC9mid.isDrawingRect = true ∧
    (clickTool Tool.select edC9mid).scene.length = 2 ∧
    ((clickTool Tool.select edC9mid).scene[1]?).map
        (fun o => (o.kind, o.selectable, o.evented)) =
      some (ObjKind.rect, true, true) ∧
    (clickTool Tool.select edC9mid).rectObj = Option.some 1 ∧
    (clickTool Tool.select edC9mid).isDrawingRect = true := by decide

/-- C9 amended: switching to any non-crop tool while a drag is mid-flight
leaves the transient object in the Scene — the wiring effect only re-applies
the new tool's selectable/evented policy to every non-base object (it removes
nothing and the scene length is preserved), and none of the in-flight drag
refs or flags are cleared. -/
theorem C9_amended_switch_keeps_transient (t : Tool) (ed : Editor)
    (hnc : t ≠ Tool.crop) :
    (clickTool t ed).scene = applyWiring t ed.scene ∧
    (clickTool t ed).scene.length = ed.scene.length ∧
    (clickTool t ed).rectObj = ed.rectObj ∧
    (clickTool t ed).circleObj = ed.circleObj ∧
    (clickTool t ed).textGuide = ed.textGuide ∧
    (clickTool t ed).arrowLine = ed.arrowLine ∧
    (clickTool t ed).arrowHead = ed.arrowHead ∧
    (clickTool t ed).isDrawingRect = ed.isDrawingRect ∧
    (clickTool t ed).isDrawingCircle = ed.isDrawingCircle ∧
    (clickTool t ed).isDrawingTextBox = ed.isDrawingTextBox ∧
    (clickTool t ed).arrowDrawing = ed.arrowDrawing ∧
    (clickTool t ed).tool = t := by
  cases t
  case crop => exact absurd rfl hnc
  all_goals exact ⟨rfl, applyWiring_length _ _, rfl, rfl, rfl, rfl, rfl, rfl,
    rfl, rfl, rfl, rfl⟩

/-- Witness for C9's amended theorem: switching to the select tool mid-drag
keeps the scene length and the transient ref. -/
theorem C9_amended_switch_keeps_transient_witness :
    (clickTool Tool.select edC9mid).scene.length = edC9mid.scene.length ∧
      (clickTool Tool.select edC9mid).rectObj = edC9mid.rectObj :=
  ⟨(C9_amended_switch_keeps_transient Tool.select edC9mid (by decide)).2.1,
    (C9_amended_switch_keeps_transient Tool.select edC9mid (by decide)).2.2.1⟩

theorem serObj_eq_self (o : FabObj) (h : o.isEditing = false) : serObj o = o := by
  unfold serObj
  cases o
  simp_all

theorem snapshotOf_eq_self (l : List FabObj)
    (h : ∀ o ∈ l, o.isEditing = false) : snapshotOf l = l := by
  unfold snapshotOf
  induction l with
  | nil => rfl
  | cons a t ih =>
      rw [List.map_cons, serObj_eq_self a (h a (by simp)),
        ih (fun o ho => h o (by simp [ho]))]

theorem setFlagsFalse_eq_self (o : FabObj) (h1 : o.selectable = false)
    (h2 : o.evented = false) :
    ({ o with selectable := false, evented := false } : FabObj) = o := by
  cases o
  simp_all

theorem selectPolicy_none_id (o : FabObj) (h1 : o.selectable = false)
    (h2 : o.evented = false) : selectPolicy Tool.none o = o := by
  unfold selectPolicy
  exact setFlagsFalse_eq_self o h1 h2

theorem map_selectPolicy_none_id (l : List FabObj)
    (h : ∀ o ∈ l, o.selectable = false ∧ o.evented = false) :
    l.map (selectPolicy Tool.none) = l := by
  induction l with
  | nil => rfl
  | cons a t ih =>
      rw [List.map_cons, selectPolicy_none_id a (h a (by simp)).1 (h a (by simp)).2,
        ih (fun o ho => h o (by simp [ho]))]

theorem restoreScene_none_id (base : FabObj) (anns : List FabObj)
    (hk : base.kind = ObjKind.image) (h1 : base.selectable = false)
    (h2 : base.evented = false)
    (ha : ∀ o ∈ anns, o.selectable = false ∧ o.evented = false) :
    restoreScene Tool.none (base :: anns) = base :: anns := by
  unfold restoreScene
  have hfind : (base :: anns).find? isImage = some base := by
    simp [List.find?, isImage, hk]
  have herase : (base :: anns).eraseP isImage = anns := by
    simp [List.eraseP_cons, isImage, hk]
  simp only [hfind, herase]
  rw [setFlagsFalse_eq_self base h1 h2, map_selectPolicy_none_id anns ha]

theorem restoredUrl_cons_image (base : FabObj) (anns : List FabObj)
    (old : String) (hk : base.kind = ObjKind.image) (hsrc : base.src ≠ "") :
    restoredUrl (base :: anns) old = base.src := by
  unfold restoredUrl
  have hfind : (base :: anns).find? isImage = some base := by
    simp [List.find?, isImage, hk]
  simp only [hfind]
  rw [if_neg hsrc]

/-- C8: if rasterization or bitmap decode fails during a crop apply, the
operation is atomic: the catch block restores the guide rectangle and the
pending-crop state exactly as before the attempt; the working image, the
history, the load-error state and every other editor field are unchanged —
`applyCropFail` is the identity on a canonical pending-crop state (guide
last in z-order, as a completed crop drag leaves it). -/
theorem C8_crop_failure_rollback (s : List FabObj) (r : FabObj)
    (pending : CropRect) (ed : Editor)
    (hscene : ed.scene = s ++ [r])
    (hcr : ed.cropRect = Option.some s.length)
    (hcp : ed.cropPending = Option.some pending) :
    applyCropFail ed = ed ∧
    (applyCropFail ed).scene = ed.scene ∧
    (applyCropFail ed).workingUrl = ed.workingUrl ∧
    (applyCropFail ed).hist = ed.hist ∧
    (applyCropFail ed).imageLoadError = ed.imageLoadError ∧
    (applyCropFail ed).cropPending = ed.cropPending := by
  have hmain : applyCropFail ed = ed := by
    unfold applyCropFail
    simp only [hcp, hcr, hscene, getElem_append_len, eraseIdx_append_len]
    rw [← hscene, ← hcr, ← hcp]
  exact ⟨hmain, by rw [hmain], by rw [hmain], by rw [hmain], by rw [hmain],
    by rw [hmain]⟩

/-- A completed 200x150 crop-guide rectangle. -/
def cropGuideBig : FabObj := { cropGuide1 with width := 200, height := 150 }

/-- An editor with a pending 200x150 crop at (50, 50): base image plus one
committed annotation, guide rectangle last in z-order. -/
def edC2 : Editor :=
  { baseEditor with
    scene := [objA, objB, cropGuideBig]
    cropRect := Option.some 2
    cropPending := Option.some { x := 50, y := 50, width := 200, height := 150 }
    hist := { undo := [[objA, objB]], redo := [] } }

/-- Witness for C8: the rollback is the identity on the concrete
pending-crop editor. -/
theorem C8_crop_failure_rollback_witness : applyCropFail edC2 = edC2 :=
  (C8_crop_failure_rollback [objA, objB] cropGuideBig
    { x := 50, y := 50, width := 200, height := 150 } edC2
    (by decide) (by decide) (by decide)).1

/-- C2: a crop apply rebuilds the Scene around the cropped bitmap as its
single object and pushes exactly one new history entry; a single `undo()`
then restores the exact pre-crop Scene — same objects (hence same object
count), the same vector annotations, and the original base image (its
intrinsic `width`/`height` fields included), with `workingUrl` re-synced to
the original image source. -/
theorem C2_crop_then_undo_restores (base : FabObj) (anns : List FabObj)
    (r : FabObj) (rest : List Snapshot) (pending : CropRect) (url : String)
    (cw0 ch0 : ℤ) (ed : Editor)
    (hscene : ed.scene = (base :: anns) ++ [r])
    (hcr : ed.cropRect = Option.some (base :: anns).length)
    (hcp : ed.cropPending = Option.some pending)
    (hhist : ed.hist.undo = snapshotOf (base :: anns) :: rest)
    (hk : base.kind = ObjKind.image)
    (hb1 : base.selectable = false) (hb2 : base.evented = false)
    (hb3 : base.isEditing = false) (hsrc : base.src ≠ "")
    (ha : ∀ o ∈ anns, o.selectable = false ∧ o.evented = false ∧
      o.isEditing = false)
    (hurl : url ≠ base.src) :
    (applyCropSuccess url cw0 ch0 ed).scene.length = 1 ∧
    (applyCropSuccess url cw0 ch0 ed).hist.undo.length =
      ed.hist.undo.length + 1 ∧
    (editorUndo (applyCropSuccess url cw0 ch0 ed)).scene = base :: anns ∧
    (editorUndo (applyCropSuccess url cw0 ch0 ed)).scene.length =
      anns.length + 1 ∧
    (editorUndo (applyCropSuccess url cw0 ch0 ed)).workingUrl = base.src ∧
    (editorUndo (applyCropSuccess url cw0 ch0 ed)).hist.undo =
      snapshotOf (base :: anns) :: rest := by
  have hsnap : snapshotOf (base :: anns) = base :: anns := by
    apply snapshotOf_eq_self
    intro o ho
    rcases List.mem_cons.mp ho with h | h
    · rw [h]; exact hb3
    · exact (ha o h).2.2
  have hstep : applyCropSuccess url cw0 ch0 ed =
      rebuild ((clampPending pending ed.canvasW ed.canvasH).width : ℚ)
        ((clampPending pending ed.canvasW ed.canvasH).height : ℚ) cw0 ch0
        { ed with
          scene := base :: anns
          cropRect := Option.none
          cropPending := Option.none
          workingUrl := url
          tool := Tool.none } := by
    unfold applyCropSuccess
    simp only [hcp, hcr, hscene, getElem_append_len, eraseIdx_append_len]
  have hne2 : ¬ ((snapshotOf (base :: anns) :: rest).head? =
      some (snapshotOf [mkBase url
        ((clampPending pending ed.canvasW ed.canvasH).width : ℚ)
        ((clampPending pending ed.canvasW ed.canvasH).height : ℚ) cw0 ch0])) := by
    simp only [List.head?_cons, Option.some.injEq]
    intro hcontra
    rw [hsnap] at hcontra
    have hser : snapshotOf [mkBase url
        ((clampPending pending ed.canvasW ed.canvasH).width : ℚ)
        ((clampPending pending ed.canvasW ed.canvasH).height : ℚ) cw0 ch0] =
        [mkBase url
          ((clampPending pending ed.canvasW ed.canvasH).width : ℚ)
          ((clampPending pending ed.canvasW ed.canvasH).height : ℚ) cw0 ch0] := rfl
    rw [hser] at hcontra
    have hbase_eq := (List.cons.injEq _ _ _ _).mp hcontra
    have hsrc_eq : base.src = url := by rw [hbase_eq.1]; rfl
    exact hurl hsrc_eq.symm
  have hh1 : (applyCropSuccess url cw0 ch0 ed).hist.undo =
      snapshotOf [mkBase url
          ((clampPending pending ed.canvasW ed.canvasH).width : ℚ)
          ((clampPending pending ed.canvasW ed.canvasH).height : ℚ) cw0 ch0] ::
        snapshotOf (base :: anns) :: rest := by
    rw [hstep]
    show (rebuildPush (snapshotOf [mkBase url
        ((clampPending pending ed.canvasW ed.canvasH).width : ℚ)
        ((clampPending pending ed.canvasW ed.canvasH).height : ℚ) cw0 ch0])
      ed.hist).undo = _
    unfold rebuildPush
    rw [hhist]
    rw [if_neg (by simp)]
    rw [if_neg hne2]
  have h2 := editorUndo_shape (applyCropSuccess url cw0 ch0 ed)
    (snapshotOf [mkBase url
      ((clampPending pending ed.canvasW ed.canvasH).width : ℚ)
      ((clampPending pending ed.canvasW ed.canvasH).height : ℚ) cw0 ch0])
    (snapshotOf (base :: anns)) rest hh1
  have htool1 : (applyCropSuccess url cw0 ch0 ed).tool = Tool.none := by
    rw [hstep]; rfl
  have hscene3 : (editorUndo (applyCropSuccess url cw0 ch0 ed)).scene =
      base :: anns := by
    rw [h2]
    show restoreScene (applyCropSuccess url cw0 ch0 ed).tool
      (snapshotOf (base :: anns)) = base :: anns
    rw [htool1, hsnap]
    exact restoreScene_none_id base anns hk hb1 hb2
      (fun o ho => ⟨(ha o ho).1, (ha o ho).2.1⟩)
  refine ⟨?_, ?_, hscene3, ?_, ?_, ?_⟩
  · rw [hstep]; rfl
  · rw [hh1, hhist]; rfl
  · rw [hscene3]; simp
  · rw [h2]
    show restoredUrl (snapshotOf (base :: anns))
      (applyCropSuccess url cw0 ch0 ed).workingUrl = base.src
    rw [hsnap]
    exact restoredUrl_cons_image base anns _ hk hsrc
  · rw [h2]

/-- Witness for C2: a 200x150 crop applied to the concrete pending-crop
editor, then undone. -/
theorem C2_crop_then_undo_restores_witness :
    (editorUndo (applyCropSuccess "cropped" 1280 760 edC2)).scene =
        [objA, objB] ∧
      (editorUndo (applyCropSuccess "cropped" 1280 760 edC2)).workingUrl =
        objA.src :=
  ⟨(C2_crop_then_undo_restores objA [objB] cropGuideBig []
      { x := 50, y := 50, width := 200, height := 150 } "cropped" 1280 760 edC2
      (by decide) (by decide) (by decide) (by decide) (by decide) (by decide)
      (by decide) (by decide) (by decide) (by decide) (by decide)).2.2.1,
    (C2_crop_then_undo_restores objA [objB] cropGuideBig []
      { x := 50, y := 50, width := 200, height := 150 } "cropped" 1280 760 edC2
      (by decide) (by decide) (by decide) (by decide) (by decide) (by decide)
      (by decide) (by decide) (by decide) (by decide) (by decide)).2.2.2.2.1⟩

theorem headBase_of_inv (ed : Editor) (h : editorInv ed = true) :
    ed.scene.head?.map (fun b => (b.kind, b.selectable, b.evented)) =
      some (ObjKind.image, false, false) := by
  obtain ⟨hs, _⟩ := (editorInv_eq ed).mp h
  obtain ⟨b, t, hbt, hk, h1, h2⟩ := sceneInvB_elim _ hs
  rw [hbt]
  simp [hk, h1, h2]

/-- C5: in every editor state reachable (by pointer events, tool clicks,
undo/redo, crop transactions, free-draw completions, transform commits,
deletions and rebuilds) from a state satisfying the editor invariant, the
object at index 0 of the z-order is the base image with `selectable = false`
and `evented = false`, regardless of the active tool — and this still holds
immediately after one more `undo()` or `redo()`, whose restore path
re-asserts the flags and re-applies the tool policy to the other objects. -/
theorem C5_base_image_always_bottom_inert (at2 : ℚ → ℚ → ℚ) (ed0 ed : Editor)
    (h0 : editorInv ed0 = true)
    (hreach : Relation.ReflTransGen (Step at2) ed0 ed) :
    ed.scene.head?.map (fun b => (b.kind, b.selectable, b.evented)) =
        some (ObjKind.image, false, false) ∧
    (editorUndo ed).scene.head?.map (fun b => (b.kind, b.selectable, b.evented)) =
        some (ObjKind.image, false, false) ∧
    (editorRedo ed).scene.head?.map (fun b => (b.kind, b.selectable, b.evented)) =
        some (ObjKind.image, false, false) := by
  have h := reachable_editorInv at2 h0 hreach
  exact ⟨headBase_of_inv ed h,
    headBase_of_inv _ (editorInv_editorUndo ed h),
    headBase_of_inv _ (editorInv_editorRedo ed h)⟩

/-- Witness for C5: one undo step from the freshly opened editor. -/
theorem C5_base_image_always_bottom_inert_witness :
    (editorUndo baseEditor).scene.head?.map
        (fun b => (b.kind, b.selectable, b.evented)) =
      some (ObjKind.image, false, false) :=
  (C5_base_image_always_bottom_inert (fun _ _ => 0) baseEditor
    (editorUndo baseEditor) (by decide)
    (Relation.ReflTransGen.single (Step.undo baseEditor))).1

/-- The promoted 1x1 rectangle exactly as a rect-tool pointer-up commits it
into the history snapshot: selectable and evented, default stroke. -/
def rectDrag1 : FabObj :=
  { kind := ObjKind.rect
    left := 100
    top := 100
    width := 1
    height := 1
    stroke := "#ef4444"
    strokeWidth := 6
    fill := "rgba(0,0,0,0)"
    selectable := true
    evented := true }

/-- The editor after one full rect drag on a fresh editor: the commit
serialized the promoted (selectable/evented) rectangle, then the
`setTool('none')` wiring reset the live flags. -/
def edC3a : Editor :=
  pointerUp (pointerDown (100, 100) (clickTool Tool.rect baseEditor))

/-- `edC3a` after a second full rect drag: a state immediately after a
committed mutation, whose pre-commit snapshot is `[objA, rectDrag1]`. -/
def edC3b : Editor :=
  pointerUp (pointerDown (200, 200) (clickTool Tool.rect edC3a))

/-- C3 counterexample: at a concrete reachable state immediately after a
committed mutation, `undo()` does NOT restore a Scene structurally equal to
the pre-commit snapshot.  The pre-commit snapshot `[objA, rectDrag1]` stores
the first rectangle promoted (`selectable = evented = true`, as pointer-up
serialized it before `setTool('none')`), but the restore path re-applies the
current tool's policy (tool `'none'`: all flags false), so the restored
scene — and its own serialization — differs from that snapshot. -/
theorem C3_counterexample_policy_reset_breaks_equality :
    edC3a.hist.undo.head? = some [objA, rectDrag1] ∧
    edC3b.hist.undo.length = 3 ∧
    edC3b.hist.undo[1]? = some [objA, rectDrag1] ∧
    (editorUndo edC3b).hist.undo.head? = some [objA, rectDrag1] ∧
    (editorUndo edC3b).scene =
      [objA, { rectDrag1 with selectable := false, evented := false }] ∧
    (editorUndo edC3b).scene ≠ [objA, rectDrag1] ∧
    snapshotOf (editorUndo edC3b).scene ≠ [objA, rectDrag1] := by decide
